import Mathlib

/-!
Rescan controller of the BTC asset (libwallet/assets/btc/rescan.go)

A shallow embedding of `rescan.go`.  The wallet is a record holding the
mutex-guarded `syncData` fields; every method is a function from the wallet
to its result and the wallet afterwards.  The chain backend is a parameter:
its answers may depend on the requests it has received so far, and every
request made is appended to the wallet's `calls` log, which is ghost state
used to state how often and in which order the backend was called.
A goroutine started with `go` is not run by the caller: it is counted in
`goroutines`, and its body is the separate step `startNotifications`.
-/

namespace Btc

/-- A block hash (`chainhash.Hash`), kept abstract. -/
structure Hash where
  val : Nat
deriving DecidableEq, Repr

/-- An address handed to the filter registration (`btcutil.Address`). -/
structure Address where
  id : Nat
deriving DecidableEq, Repr

/-- A fetched block (`btcutil.Block`); `blockHash` is what `block.Hash()` returns. -/
structure Block where
  blockHash : Hash
  body : Nat
deriving DecidableEq, Repr

/-- Go `error` values met in `rescan.go`: `invalid` is `errors.E(utils.ErrInvalid)`,
`text msg` is `errors.New(msg)`, `backend code` stands for an error produced by the
chain backend. -/
inductive Error where
  | invalid
  | text (msg : String)
  | backend (code : Nat)
deriving DecidableEq, Repr

/-- One request sent to the chain backend. -/
inductive Call where
  | getBlockHash (height : Int)
  | getBlock (hash : Hash)
  | notifyReceived (addrs : List Address)
  | stop
deriving DecidableEq, Repr

/-- The chain backend: each answer is a function of the requests received before
and of the arguments.  `notifyReceived` answers `none` for a nil error. -/
structure Backend where
  getBlockHash : List Call → Int → Except Error Hash
  getBlock : List Call → Hash → Except Error Block
  notifyReceived : List Call → List Address → Option Error

/-- Modelled from the spec: the constant `stop` of `syncstarted` is declared outside
`rescan.go`; the spec gives `syncStarted` the two values stopped and started. -/
def stop : Int := 0

/-- Modelled from the spec: the constant `start` of `syncstarted` is declared outside
`rescan.go`; it is the value other than `stop`. -/
def start : Int := 1

/-- The fields of `asset.syncData` that `rescan.go` reads and writes.
Modelled from the spec: the field `synced` is read by `IsSynced`, which is declared
outside `rescan.go`. -/
structure SyncData where
  isRescan : Bool
  syncstarted : Int
  synced : Bool
deriving DecidableEq, Repr

/-- The wallet `*BTCAsset`, with the ghost fields `calls` (requests sent to the
backend, oldest first), `goroutines` (goroutines started and not yet run) and
`handlerRuns` (invocations of `handleNotifications`). -/
structure BTCAsset where
  syncData : SyncData
  blocksRescanProgressListener : Option Nat
  calls : List Call
  goroutines : Nat
  handlerRuns : Nat
deriving DecidableEq, Repr

/-- Method `IsRescanning`: `return asset.syncData.isRescan`. -/
def BTCAsset.IsRescanning (asset : BTCAsset) : Bool :=
  asset.syncData.isRescan

/-- Modelled from the spec: `IsSynced` is declared outside `rescan.go`; it reads the
`synced` flag under the read lock. -/
def BTCAsset.IsSynced (asset : BTCAsset) : Bool :=
  asset.syncData.synced

/-- Append a request to the log of backend calls. -/
def BTCAsset.record (asset : BTCAsset) (c : Call) : BTCAsset :=
  { asset with calls := asset.calls ++ [c] }

/-- Modelled from the spec: `asset.GetBlockHash` is declared outside `rescan.go`; it
resolves a height to a block hash through the chain backend. -/
def BTCAsset.GetBlockHash (be : Backend) (asset : BTCAsset) (height : Int) :
    Except Error Hash × BTCAsset :=
  (be.getBlockHash asset.calls height, asset.record (Call.getBlockHash height))

/-- The request `asset.chainService.GetBlock(hash)`. -/
def BTCAsset.GetBlock (be : Backend) (asset : BTCAsset) (hash : Hash) :
    Except Error Block × BTCAsset :=
  (be.getBlock asset.calls hash, asset.record (Call.getBlock hash))

/-- The request `asset.chainClient.NotifyReceived(addrs)`. -/
def BTCAsset.NotifyReceived (be : Backend) (asset : BTCAsset) (addrs : List Address) :
    Option Error × BTCAsset :=
  (be.notifyReceived asset.calls addrs, asset.record (Call.notifyReceived addrs))

/-- The request `asset.chainClient.Stop()`. -/
def BTCAsset.Stop (asset : BTCAsset) : BTCAsset :=
  asset.record Call.stop

/-- The call `atomic.CompareAndSwapInt32(addr, old, new)` on a cell holding `cur`:
the new content of the cell and whether the swap happened. -/
def compareAndSwapInt32 (cur old new : Int) : Int × Bool :=
  if cur = old then (new, true) else (cur, false)

/-- Body of the goroutine started by `rescanBlocks`:
`if atomic.CompareAndSwapInt32(&asset.syncData.syncstarted, stop, start)` then
`asset.handleNotifications()`.  The handler is declared outside `rescan.go`; its
invocation is counted in `handlerRuns`. -/
def BTCAsset.startNotifications (asset : BTCAsset) : BTCAsset :=
  match compareAndSwapInt32 asset.syncData.syncstarted stop start with
  | (v, true) =>
      { asset with
        syncData := { asset.syncData with syncstarted := v }
        handlerRuns := asset.handlerRuns + 1 }
  | (_, false) => asset

/-- Method `rescanBlocks(startHash, addrs)`.  `startHash = none` is the nil pointer,
`addrs = none` the nil slice.  The result is the returned `error` (`none` for nil)
and the wallet afterwards. -/
def BTCAsset.rescanBlocks (be : Backend) (asset : BTCAsset) (startHash : Option Hash)
    (addrs : Option (List Address)) : Option Error × BTCAsset :=
  if asset.IsRescanning || !asset.IsSynced then
    (some Error.invalid, asset)
  else
    match startHash with
    | none =>
        (some (Error.text "block hash from where to start rescanning must be provided"), asset)
    | some _ =>
        let addrs1 : List Address :=
          match addrs with
          | none => []
          | some l => l
        let asset1 : BTCAsset :=
          { asset with syncData := { asset.syncData with isRescan := true } }
        match BTCAsset.NotifyReceived be asset1 addrs1 with
        | (some err, asset2) => (some err, asset2)
        | (none, asset2) => (none, { asset2 with goroutines := asset2.goroutines + 1 })

/-- Body of the method `RescanBlocksFromHeight(startHeight)`, with the routine called
in its last statement, `return asset.rescanBlocks(block.Hash(), nil)`, as the
parameter `core`, so that the arguments handed over can be stated.  The conversion
`int64(startHeight)` of an `int32` keeps the value. -/
def BTCAsset.RescanBlocksFromHeightWith (be : Backend)
    (core : BTCAsset → Option Hash → Option (List Address) → Option Error × BTCAsset)
    (asset : BTCAsset) (startHeight : Int) : Option Error × BTCAsset :=
  match BTCAsset.GetBlockHash be asset startHeight with
  | (Except.error err, asset1) => (some err, asset1)
  | (Except.ok hash, asset1) =>
      match BTCAsset.GetBlock be asset1 hash with
      | (Except.error err, asset2) => (some err, asset2)
      | (Except.ok block, asset2) => core asset2 (some block.blockHash) none

/-- Method `RescanBlocksFromHeight(startHeight)`: the body above, calling
`rescanBlocks`. -/
def BTCAsset.RescanBlocksFromHeight (be : Backend) (asset : BTCAsset) (startHeight : Int) :
    Option Error × BTCAsset :=
  BTCAsset.RescanBlocksFromHeightWith be (BTCAsset.rescanBlocks be) asset startHeight

/-- Method `RescanBlocks`: `return asset.RescanBlocksFromHeight(0)`. -/
def BTCAsset.RescanBlocks (be : Backend) (asset : BTCAsset) : Option Error × BTCAsset :=
  BTCAsset.RescanBlocksFromHeight be asset 0

/-- Method `CancelRescan`: clears `isRescan` under the lock, then `chainClient.Stop()`. -/
def BTCAsset.CancelRescan (asset : BTCAsset) : BTCAsset :=
  BTCAsset.Stop { asset with syncData := { asset.syncData with isRescan := false } }

/-- Method `SetBlocksRescanProgressListener`: stores the listener in the wallet.  A
listener is an interface value, `none` being the nil interface. -/
def BTCAsset.SetBlocksRescanProgressListener (asset : BTCAsset)
    (blocksRescanProgressListener : Option Nat) : BTCAsset :=
  { asset with blocksRescanProgressListener := blocksRescanProgressListener }

/-- Number of filter registrations in a log of backend calls. -/
def countNotifyReceived : List Call → Nat
  | [] => 0
  | Call.notifyReceived _ :: cs => countNotifyReceived cs + 1
  | _ :: cs => countNotifyReceived cs

/-- Number of `Stop` requests in a log of backend calls. -/
def countStop : List Call → Nat
  | [] => 0
  | Call.stop :: cs => countStop cs + 1
  | _ :: cs => countStop cs

/-- The wallet after the goroutine started by `rescanBlocks` has run its start step
(`ran = true`) or has not run yet (`ran = false`). -/
def BTCAsset.afterGoroutine (asset : BTCAsset) (ran : Bool) : BTCAsset :=
  if ran then asset.startNotifications else asset

/-- One call of a method of `rescan.go` on the wallet, or one run of the goroutine
body started by `rescanBlocks`. -/
inductive Op where
  | rescanBlocks (startHash : Option Hash) (addrs : Option (List Address))
  | rescanBlocksFromHeight (startHeight : Int)
  | rescanAll
  | cancelRescan
  | goroutine
deriving DecidableEq, Repr

/-- The wallet after one operation. -/
def Op.apply (be : Backend) (asset : BTCAsset) : Op → BTCAsset
  | Op.rescanBlocks startHash addrs => (BTCAsset.rescanBlocks be asset startHash addrs).2
  | Op.rescanBlocksFromHeight startHeight =>
      (BTCAsset.RescanBlocksFromHeight be asset startHeight).2
  | Op.rescanAll => (BTCAsset.RescanBlocks be asset).2
  | Op.cancelRescan => BTCAsset.CancelRescan asset
  | Op.goroutine => BTCAsset.startNotifications asset

/-- One operation on a wallet paired with a ghost flag: the value `IsSynced()` had at
the moment `isRescan` last went from false to true. -/
def trackStep (be : Backend) (st : BTCAsset × Bool) (op : Op) : BTCAsset × Bool :=
  (Op.apply be st.1 op,
    if !st.1.IsRescanning && (Op.apply be st.1 op).IsRescanning then st.1.IsSynced else st.2)

/-- A sequence of operations, oldest first, with the ghost flag of `trackStep`. -/
def trackRun (be : Backend) (st : BTCAsset × Bool) (ops : List Op) : BTCAsset × Bool :=
  ops.foldl (trackStep be) st

/-- Where one goroutine started by `rescanBlocks` stands in its body: `ready` before
the compare-and-swap, `swapped` after a successful swap and before the call of
`handleNotifications`, `handling` once the handler has been called, `skipped` when
the swap failed and the goroutine returned. -/
inductive Pc where
  | ready
  | swapped
  | handling
  | skipped
deriving DecidableEq, Repr

/-- A wallet shared by several goroutines started by `rescanBlocks`. -/
structure Pool where
  asset : BTCAsset
  pcs : List Pc
deriving DecidableEq, Repr

/-- The pool of `n` goroutines that have not run yet. -/
def Pool.init (asset : BTCAsset) (n : Nat) : Pool :=
  { asset := asset, pcs := List.replicate n Pc.ready }

/-- Goroutine `i` takes its next atomic step: the compare-and-swap on `syncstarted`
when it is `ready`, the call of `handleNotifications` when it has `swapped`; a
goroutine that is done, or an index that names no goroutine, changes nothing. -/
def Pool.step (p : Pool) (i : Nat) : Pool :=
  match p.pcs[i]? with
  | some Pc.ready =>
      match compareAndSwapInt32 p.asset.syncData.syncstarted stop start with
      | (v, true) =>
          { asset := { p.asset with syncData := { p.asset.syncData with syncstarted := v } }
            pcs := p.pcs.set i Pc.swapped }
      | (_, false) => { p with pcs := p.pcs.set i Pc.skipped }
  | some Pc.swapped =>
      { asset := { p.asset with handlerRuns := p.asset.handlerRuns + 1 }
        pcs := p.pcs.set i Pc.handling }
  | _ => p

/-- An interleaving: the goroutines named by `sched` step one after the other. -/
def Pool.run (p : Pool) (sched : List Nat) : Pool :=
  sched.foldl Pool.step p

/-- Number of goroutines whose compare-and-swap from `stop` to `start` succeeded. -/
def Pool.transitions (p : Pool) : Nat :=
  p.pcs.count Pc.swapped + p.pcs.count Pc.handling

/-- Every goroutine has completed its start step: it called the handler or returned. -/
def Pool.finished (p : Pool) : Bool :=
  p.pcs.all fun pc => pc == Pc.handling || pc == Pc.skipped

/-- No goroutine has run yet. -/
def Pool.untouched (p : Pool) : Bool :=
  p.pcs.all fun pc => pc == Pc.ready

/-- How far a goroutine is in its body: 0 before the compare-and-swap, 1 between a
successful swap and the handler call, 2 when its start step is complete. -/
def Pc.rank : Pc → Nat
  | Pc.ready => 0
  | Pc.swapped => 1
  | Pc.handling => 2
  | Pc.skipped => 2

/-- The rank of an entry of the pool; an index that names no goroutine counts as
complete. -/
def Pc.rankOpt : Option Pc → Nat
  | some pc => pc.rank
  | none => 2

/-- How far goroutine `i` of the pool is. -/
def Pool.rankAt (p : Pool) (i : Nat) : Nat :=
  Pc.rankOpt p.pcs[i]?

/-- Invariant of the pool, with `h0` the handler invocations counted before the
goroutines were started: either `syncstarted` is `stop` and nothing has run, or it is
`start` and exactly one goroutine made the transition. -/
def Pool.Inv (h0 : Nat) (p : Pool) : Prop :=
  (p.asset.syncData.syncstarted = stop ∧ p.untouched = true ∧ p.asset.handlerRuns = h0) ∨
    (p.asset.syncData.syncstarted = start ∧ p.transitions = 1 ∧
      p.asset.handlerRuns = h0 + p.pcs.count Pc.handling)

/-- One event of an execution, as far as the lock `syncData.mu` and the chain
backend are concerned: the four lock operations, a request to the backend, and the
start of a goroutine. -/
inductive Event where
  | lock
  | unlock
  | rLock
  | rUnlock
  | call (c : Call)
  | go
deriving DecidableEq, Repr

/-- How the executing method holds `syncData.mu`. -/
inductive Held where
  | free
  | write
  | read
deriving DecidableEq, Repr

/-- One event under the lock discipline: a lock is taken only when none is held and
released in the mode it was taken, and a backend request is made only when no lock
is held; `none` when the event breaks the discipline. -/
def lockStep : Held → Event → Option Held
  | Held.free, Event.lock => some Held.write
  | Held.write, Event.unlock => some Held.free
  | Held.free, Event.rLock => some Held.read
  | Held.read, Event.rUnlock => some Held.free
  | Held.free, Event.call _ => some Held.free
  | held, Event.go => some held
  | _, _ => none

/-- A sequence of events keeps the lock discipline and ends with no lock held. -/
def lockDiscipline : Held → List Event → Bool
  | held, [] => held == Held.free
  | held, e :: es =>
      match lockStep held e with
      | some held1 => lockDiscipline held1 es
      | none => false

/-- The backend requests among the events, in order. -/
def callsOf : List Event → List Call
  | [] => []
  | Event.call c :: es => c :: callsOf es
  | _ :: es => callsOf es

/-- Events of `IsRescanning`: `RLock`, and the deferred `RUnlock` at the return. -/
def IsRescanningEvents : List Event :=
  [Event.rLock, Event.rUnlock]

/-- Modelled from the spec: `IsSynced` is declared outside `rescan.go`; the spec has it
read-locked. -/
def IsSyncedEvents : List Event :=
  [Event.rLock, Event.rUnlock]

/-- Events of `rescanBlocks`, statement by statement; `||` does not evaluate
`IsSynced()` when `IsRescanning()` is true. -/
def BTCAsset.rescanBlocksEvents (be : Backend) (asset : BTCAsset)
    (startHash : Option Hash) (addrs : Option (List Address)) : List Event :=
  IsRescanningEvents ++
    (if asset.IsRescanning then []
    else
      IsSyncedEvents ++
        (if !asset.IsSynced then []
        else
          match startHash with
          | none => []
          | some _ =>
              let addrs1 : List Address :=
                match addrs with
                | none => []
                | some l => l
              let asset1 : BTCAsset :=
                { asset with syncData := { asset.syncData with isRescan := true } }
              [Event.lock, Event.unlock, Event.call (Call.notifyReceived addrs1)] ++
                (match BTCAsset.NotifyReceived be asset1 addrs1 with
                | (some _, _) => []
                | (none, _) => [Event.go])))

/-- Events of `RescanBlocksFromHeight`. -/
def BTCAsset.RescanBlocksFromHeightEvents (be : Backend) (asset : BTCAsset)
    (startHeight : Int) : List Event :=
  Event.call (Call.getBlockHash startHeight) ::
    (match BTCAsset.GetBlockHash be asset startHeight with
    | (Except.error _, _) => []
    | (Except.ok hash, asset1) =>
        Event.call (Call.getBlock hash) ::
          (match BTCAsset.GetBlock be asset1 hash with
          | (Except.error _, _) => []
          | (Except.ok block, asset2) =>
              BTCAsset.rescanBlocksEvents be asset2 (some block.blockHash) none))

/-- Events of `CancelRescan`: `Lock`, `Unlock`, then `chainClient.Stop()`. -/
def CancelRescanEvents : List Event :=
  [Event.lock, Event.unlock, Event.call Call.stop]

/-! ## Concrete backends and wallets used as test inputs -/

/-- A backend on which every request succeeds. -/
def goodBackend : Backend where
  getBlockHash := fun _ h => Except.ok ⟨h.toNat⟩
  getBlock := fun _ h => Except.ok ⟨h, 0⟩
  notifyReceived := fun _ _ => none

/-- A backend that resolves and fetches blocks but rejects the filter registration. -/
def rejectingBackend : Backend where
  getBlockHash := fun _ h => Except.ok ⟨h.toNat⟩
  getBlock := fun _ h => Except.ok ⟨h, 0⟩
  notifyReceived := fun _ _ => some (Error.backend 1)

/-- A backend that knows no block above height 100. -/
def shortChainBackend : Backend where
  getBlockHash := fun _ h => if h ≤ 100 then Except.ok ⟨h.toNat⟩ else Except.error (Error.backend 2)
  getBlock := fun _ h => Except.ok ⟨h, 0⟩
  notifyReceived := fun _ _ => none

/-- A backend that resolves every height but cannot deliver any block. -/
def fetchFailBackend : Backend where
  getBlockHash := fun _ h => Except.ok ⟨h.toNat⟩
  getBlock := fun _ _ => Except.error (Error.backend 3)
  notifyReceived := fun _ _ => none

/-- A synced wallet with no rescan running and no backend call made yet. -/
def syncedIdle : BTCAsset :=
  { syncData := { isRescan := false, syncstarted := stop, synced := true }
    blocksRescanProgressListener := none
    calls := []
    goroutines := 0
    handlerRuns := 0 }

/-- A wallet that is not synced. -/
def unsyncedIdle : BTCAsset :=
  { syncedIdle with syncData := { isRescan := false, syncstarted := stop, synced := false } }

/-- A synced wallet with a rescan in progress. -/
def syncedRescanning : BTCAsset :=
  { syncedIdle with syncData := { isRescan := true, syncstarted := start, synced := true } }

end Btc

/-!
Formatting helpers (ui/page/components/components.go, libwallet/assets/dcr/utils.go)

Go's `int` and `int64` are modelled by `Int`; where an operation can leave the
64-bit range its result is wrapped by `wrapInt64`.  A run-time panic is the result
`none`.  A Go string that is sliced is a list of bytes.
-/

namespace Fmt

/-- The verb `%d` of `fmt.Sprintf` on an integer: the decimal digits, with a leading
minus sign for a negative number. -/
def decimal (n : Int) : String :=
  if n < 0 then "-" ++ Nat.repr n.natAbs else Nat.repr n.natAbs

/-- The smallest `int64`. -/
def minInt64 : Int := -9223372036854775808

/-- The largest `int64`. -/
def maxInt64 : Int := 9223372036854775807

/-- Two's-complement wrap-around of an integer result into the `int64` range. -/
def wrapInt64 (n : Int) : Int :=
  (n + 9223372036854775808) % 18446744073709551616 - 9223372036854775808

end Fmt

namespace Components

/-- One byte of a Go string. -/
abbrev Byte := Fin 256

/-- The string `"..."`. -/
def dots : List Byte := [46, 46, 46]

/-- The slice expression `str[0:hi]` on a string: a run-time panic unless
`0 ≤ hi ≤ len(str)`. -/
def sliceTo (str : List Byte) (hi : Int) : Option (List Byte) :=
  if 0 ≤ hi ∧ hi ≤ (str.length : Int) then some (str.take hi.toNat) else none

/-- Function `TruncateString(str, num)`. -/
def TruncateString (str : List Byte) (num : Int) : Option (List Byte) :=
  if (str.length : Int) > num then
    let num1 : Int := if num > 3 then num - 3 else num
    match sliceTo str num1 with
    | none => none
    | some head => some (head ++ dots)
  else
    some str

/-- Keys of the localised strings that `TimeFormat` looks up with `values.String`. -/
inductive StrKey where
  | StrDays
  | StrHours
  | StrMinutes
  | StrSeconds
deriving DecidableEq, Repr

/-- Function `TimeFormat(secs, long)`.  The table of localised strings behind
`values.String` is declared outside the source files and is the parameter
`valuesString`. -/
def TimeFormat (valuesString : StrKey → String) (secs : Int) (long : Bool) : String :=
  if secs > 86399 then
    let val : String := if long then " " ++ valuesString StrKey.StrDays else "d"
    let days : Int := secs.tdiv 86400
    Fmt.decimal days ++ val
  else if secs > 3599 then
    let val : String := if long then " " ++ valuesString StrKey.StrHours else "h"
    let hours : Int := secs.tdiv 3600
    Fmt.decimal hours ++ val
  else if secs > 59 then
    let val : String := if long then " " ++ valuesString StrKey.StrMinutes else "s"
    let mins : Int := secs.tdiv 60
    Fmt.decimal mins ++ val
  else
    let val : String := if long then " " ++ valuesString StrKey.StrSeconds else "s"
    Fmt.decimal secs ++ " " ++ val

/-- Function `divMod(numerator, denominator)` on `int64`: `/` and `%` truncate
towards zero; a zero denominator is a run-time panic; the quotient of the smallest
`int64` by `-1` wraps around. -/
def divMod (numerator denominator : Int) : Option (Int × Int) :=
  if denominator = 0 then none
  else
    some (Fmt.wrapInt64 (numerator.tdiv denominator),
      Fmt.wrapInt64 (numerator.tmod denominator))

/-- The constant `time.Second`: the nanoseconds of one second. -/
def second : Int := 1000000000

/-- Function `SecondsToDays(totalTimeLeft)`.  `durationString` is the method
`String` of `time.Duration`, a function of the nanosecond count. -/
def SecondsToDays (durationString : Int → String) (totalTimeLeft : Int) : Option String :=
  match divMod totalTimeLeft (24 * 60 * 60) with
  | none => none
  | some (q, r) =>
      let timeLeft : Int := Fmt.wrapInt64 (r * second)
      if q > 0 then some (Fmt.decimal q ++ "d" ++ durationString timeLeft)
      else some (durationString timeLeft)

/-- A stand-in for `time.Duration.String` used on test inputs: the whole seconds
followed by `s`. -/
def secondsOnly (nanos : Int) : String :=
  Fmt.decimal (nanos.tdiv second) ++ "s"

end Components

namespace Dcr

/-- Function `calculateTotalTimeRemaining(timeRemainingInSeconds)`. -/
def calculateTotalTimeRemaining (timeRemainingInSeconds : Int) : String :=
  let minutes : Int := timeRemainingInSeconds.tdiv 60
  if minutes > 0 then Fmt.decimal minutes ++ " min"
  else Fmt.decimal timeRemainingInSeconds ++ " sec"

end Dcr

namespace Btc

/-! ## Shared lemmas -/

theorem countNotifyReceived_append (xs ys : List Call) :
    countNotifyReceived (xs ++ ys) = countNotifyReceived xs + countNotifyReceived ys := by
  induction xs with
  | nil => simp [countNotifyReceived]
  | cons c cs ih =>
      cases c <;> simp [countNotifyReceived, ih]; omega

theorem countStop_append (xs ys : List Call) :
    countStop (xs ++ ys) = countStop xs + countStop ys := by
  induction xs with
  | nil => simp [countStop]
  | cons c cs ih =>
      cases c <;> simp [countStop, ih]; omega

/-- The state check of `rescanBlocks` rejects a rescanning or unsynced wallet and
leaves it as it was. -/
theorem rescanBlocks_blocked (be : Backend) (asset : BTCAsset) (startHash : Option Hash)
    (addrs : Option (List Address))
    (h : asset.IsRescanning = true ∨ asset.IsSynced = false) :
    BTCAsset.rescanBlocks be asset startHash addrs = (some Error.invalid, asset) := by
  unfold BTCAsset.rescanBlocks
  rcases h with h | h <;> simp [h]

/-- What `rescanBlocks` does on a synced, idle wallet with a start hash. -/
theorem rescanBlocks_ready (be : Backend) (asset : BTCAsset) (hash : Hash)
    (addrs : Option (List Address))
    (hs : asset.IsSynced = true) (hr : asset.IsRescanning = false) :
    BTCAsset.rescanBlocks be asset (some hash) addrs =
      match be.notifyReceived asset.calls (addrs.getD []) with
      | some err =>
          (some err,
            { asset with
              syncData := { asset.syncData with isRescan := true }
              calls := asset.calls ++ [Call.notifyReceived (addrs.getD [])] })
      | none =>
          (none,
            { asset with
              syncData := { asset.syncData with isRescan := true }
              calls := asset.calls ++ [Call.notifyReceived (addrs.getD [])]
              goroutines := asset.goroutines + 1 }) := by
  unfold BTCAsset.rescanBlocks
  cases addrs with
  | none =>
      cases hn : be.notifyReceived asset.calls [] <;>
        simp [hs, hr, hn, BTCAsset.NotifyReceived, BTCAsset.record]
  | some l =>
      cases hn : be.notifyReceived asset.calls l <;>
        simp [hs, hr, hn, BTCAsset.NotifyReceived, BTCAsset.record]

/-- The three outcomes of `RescanBlocksFromHeight`. -/
theorem RescanBlocksFromHeight_cases (be : Backend) (asset : BTCAsset) (h : Int) :
    BTCAsset.RescanBlocksFromHeight be asset h =
      match be.getBlockHash asset.calls h with
      | Except.error err => (some err, asset.record (Call.getBlockHash h))
      | Except.ok hash =>
          match be.getBlock (asset.calls ++ [Call.getBlockHash h]) hash with
          | Except.error err =>
              (some err, (asset.record (Call.getBlockHash h)).record (Call.getBlock hash))
          | Except.ok block =>
              BTCAsset.rescanBlocks be
                ((asset.record (Call.getBlockHash h)).record (Call.getBlock hash))
                (some block.blockHash) none := by
  unfold BTCAsset.RescanBlocksFromHeight BTCAsset.RescanBlocksFromHeightWith
  simp only [BTCAsset.GetBlockHash, BTCAsset.GetBlock, BTCAsset.record]
  cases be.getBlockHash asset.calls h with
  | error e => rfl
  | ok hash =>
      simp only []
      cases be.getBlock (asset.calls ++ [Call.getBlockHash h]) hash <;> rfl

/-- The three outcomes of the body of `RescanBlocksFromHeight`, for every routine
`core` called in its last statement. -/
theorem RescanBlocksFromHeightWith_cases (be : Backend)
    (core : BTCAsset → Option Hash → Option (List Address) → Option Error × BTCAsset)
    (asset : BTCAsset) (h : Int) :
    BTCAsset.RescanBlocksFromHeightWith be core asset h =
      match be.getBlockHash asset.calls h with
      | Except.error err => (some err, asset.record (Call.getBlockHash h))
      | Except.ok hash =>
          match be.getBlock (asset.calls ++ [Call.getBlockHash h]) hash with
          | Except.error err =>
              (some err, (asset.record (Call.getBlockHash h)).record (Call.getBlock hash))
          | Except.ok block =>
              core ((asset.record (Call.getBlockHash h)).record (Call.getBlock hash))
                (some block.blockHash) none := by
  unfold BTCAsset.RescanBlocksFromHeightWith
  simp only [BTCAsset.GetBlockHash, BTCAsset.GetBlock, BTCAsset.record]
  cases be.getBlockHash asset.calls h with
  | error e => rfl
  | ok hash =>
      simp only []
      cases be.getBlock (asset.calls ++ [Call.getBlockHash h]) hash <;> rfl

/-- A call of `RescanBlocksFromHeight` on a rescanning or unsynced wallet: the
returned error, the untouched sync state and the backend calls made. -/
theorem RescanBlocksFromHeight_blocked (be : Backend) (asset : BTCAsset) (h : Int)
    (hb : asset.IsRescanning = true ∨ asset.IsSynced = false) :
    BTCAsset.RescanBlocksFromHeight be asset h =
      match be.getBlockHash asset.calls h with
      | Except.error err => (some err, asset.record (Call.getBlockHash h))
      | Except.ok hash =>
          match be.getBlock (asset.calls ++ [Call.getBlockHash h]) hash with
          | Except.error err =>
              (some err, (asset.record (Call.getBlockHash h)).record (Call.getBlock hash))
          | Except.ok _ =>
              (some Error.invalid,
                (asset.record (Call.getBlockHash h)).record (Call.getBlock hash)) := by
  rw [RescanBlocksFromHeight_cases]
  cases be.getBlockHash asset.calls h with
  | error e => rfl
  | ok hash =>
      simp only []
      cases be.getBlock (asset.calls ++ [Call.getBlockHash h]) hash with
      | error e => rfl
      | ok block =>
          simp only []
          exact rescanBlocks_blocked be _ _ _ hb

/-- A successful `rescanBlocks` was called on a synced, idle wallet and ends with the
rescanning flag set. -/
theorem rescanBlocks_ok (be : Backend) (asset : BTCAsset) (startHash : Option Hash)
    (addrs : Option (List Address))
    (h : (BTCAsset.rescanBlocks be asset startHash addrs).1 = none) :
    asset.IsSynced = true ∧ asset.IsRescanning = false ∧
      (BTCAsset.rescanBlocks be asset startHash addrs).2.IsRescanning = true := by
  cases hs : asset.IsSynced with
  | false =>
      rw [rescanBlocks_blocked be asset startHash addrs (Or.inr hs)] at h
      simp at h
  | true =>
      cases hr : asset.IsRescanning with
      | true =>
          rw [rescanBlocks_blocked be asset startHash addrs (Or.inl hr)] at h
          simp at h
      | false =>
          cases startHash with
          | none => simp [BTCAsset.rescanBlocks, hs, hr] at h
          | some hash =>
              rw [rescanBlocks_ready be asset hash addrs hs hr] at h ⊢
              cases hn : be.notifyReceived asset.calls (addrs.getD []) with
              | some e => simp [hn] at h
              | none => simp [BTCAsset.IsRescanning]

/-- A successful `RescanBlocksFromHeight` ends with the rescanning flag set. -/
theorem RescanBlocksFromHeight_ok (be : Backend) (asset : BTCAsset) (h : Int)
    (hok : (BTCAsset.RescanBlocksFromHeight be asset h).1 = none) :
    (BTCAsset.RescanBlocksFromHeight be asset h).2.IsRescanning = true := by
  rw [RescanBlocksFromHeight_cases] at hok ⊢
  cases hh : be.getBlockHash asset.calls h with
  | error e => simp [hh] at hok
  | ok hash =>
      simp only [hh] at hok ⊢
      cases hg : be.getBlock (asset.calls ++ [Call.getBlockHash h]) hash with
      | error e => simp [hg] at hok
      | ok block =>
          simp only [hg] at hok ⊢
          exact (rescanBlocks_ok be _ _ _ hok).2.2

/-- The start step of the goroutine does not touch the rescanning flag. -/
theorem startNotifications_isRescan (asset : BTCAsset) :
    asset.startNotifications.IsRescanning = asset.IsRescanning := by
  unfold BTCAsset.startNotifications compareAndSwapInt32
  split <;> rename_i heq <;> split at heq <;> simp_all [BTCAsset.IsRescanning]

/-! ## C1: failed filter registration -/

/-- C1, the code at the failing input: on a synced, idle wallet with a start hash,
when `NotifyReceived` is rejected, `rescanBlocks` returns the backend error and the
wallet is still marked as rescanning (`isRescan` set before the request is not
cleared on the error return). -/
theorem rescanBlocks_rejected_stays_rescanning :
    syncedIdle.IsSynced = true ∧ syncedIdle.IsRescanning = false ∧
      (BTCAsset.rescanBlocks rejectingBackend syncedIdle (some ⟨7⟩) none).1
        = some (Error.backend 1) ∧
      (BTCAsset.rescanBlocks rejectingBackend syncedIdle (some ⟨7⟩) none).2.IsRescanning
        = true := by
  decide

/-! ## C2: `RescanBlocksFromHeight` on an unsynced wallet -/

/-- C2, counterexample: on an unsynced wallet, a height the backend cannot resolve
makes `RescanBlocksFromHeight` return the resolution error, not the invalid-state
error. -/
theorem RescanBlocksFromHeight_unsynced_unresolved :
    unsyncedIdle.IsSynced = false ∧
      (BTCAsset.RescanBlocksFromHeight shortChainBackend unsyncedIdle 500).1
        = some (Error.backend 2) ∧
      (BTCAsset.RescanBlocksFromHeight shortChainBackend unsyncedIdle 500).1
        ≠ some Error.invalid := by
  decide

/-- C2, amended: on an unsynced wallet `RescanBlocksFromHeight` always fails; the error
is the hash-resolution error when `GetBlockHash` fails, the fetch error when
`GetBlock` fails, and the invalid-state error when both succeed. -/
theorem RescanBlocksFromHeight_unsynced (be : Backend) (asset : BTCAsset) (h : Int)
    (hs : asset.IsSynced = false) :
    (BTCAsset.RescanBlocksFromHeight be asset h).1 ≠ none ∧
      (BTCAsset.RescanBlocksFromHeight be asset h).1 =
        match be.getBlockHash asset.calls h with
        | Except.error err => some err
        | Except.ok hash =>
            match be.getBlock (asset.calls ++ [Call.getBlockHash h]) hash with
            | Except.error err => some err
            | Except.ok _ => some Error.invalid := by
  rw [RescanBlocksFromHeight_blocked be asset h (Or.inr hs)]
  cases be.getBlockHash asset.calls h with
  | error e => simp
  | ok hash =>
      cases hg : be.getBlock (asset.calls ++ [Call.getBlockHash h]) hash <;> simp [hg]

/-- C2, witness: an unsynced wallet on a backend that resolves and fetches height 5. -/
theorem RescanBlocksFromHeight_unsynced_witness :
    unsyncedIdle.IsSynced = false ∧
      (BTCAsset.RescanBlocksFromHeight goodBackend unsyncedIdle 5).1 ≠ none ∧
      (BTCAsset.RescanBlocksFromHeight goodBackend unsyncedIdle 5).1
        = some Error.invalid :=
  ⟨rfl, RescanBlocksFromHeight_unsynced goodBackend unsyncedIdle 5 rfl⟩

/-! ## C3: `RescanBlocks` on an unsynced wallet -/

/-- C3, counterexample: on an unsynced wallet `RescanBlocks` resolves height 0 and
fetches the block before it fails, so backend calls are made. -/
theorem RescanBlocks_unsynced_calls_backend :
    unsyncedIdle.IsSynced = false ∧ unsyncedIdle.calls = [] ∧
      (BTCAsset.RescanBlocks goodBackend unsyncedIdle).2.calls
        = [Call.getBlockHash 0, Call.getBlock ⟨0⟩] := by
  decide

/-- C3, amended: on an unsynced wallet `RescanBlocks` fails, leaves the sync state
as it was, and makes no `NotifyReceived` and no `Stop` request; the requests it does
make are exactly the hash resolution of height 0 and, when that succeeds, the fetch
of the block with the resolved hash. -/
theorem RescanBlocks_unsynced (be : Backend) (asset : BTCAsset)
    (hs : asset.IsSynced = false) :
    (BTCAsset.RescanBlocks be asset).1 ≠ none ∧
      (BTCAsset.RescanBlocks be asset).2.syncData = asset.syncData ∧
      countNotifyReceived (BTCAsset.RescanBlocks be asset).2.calls
        = countNotifyReceived asset.calls ∧
      countStop (BTCAsset.RescanBlocks be asset).2.calls = countStop asset.calls ∧
      (BTCAsset.RescanBlocks be asset).2.calls =
        match be.getBlockHash asset.calls 0 with
        | Except.error _ => asset.calls ++ [Call.getBlockHash 0]
        | Except.ok hash => asset.calls ++ [Call.getBlockHash 0, Call.getBlock hash] := by
  unfold BTCAsset.RescanBlocks
  rw [RescanBlocksFromHeight_blocked be asset 0 (Or.inr hs)]
  cases be.getBlockHash asset.calls 0 with
  | error e =>
      simp [BTCAsset.record, countNotifyReceived_append, countStop_append,
        countNotifyReceived, countStop]
  | ok hash =>
      cases hg : be.getBlock (asset.calls ++ [Call.getBlockHash 0]) hash <;>
        simp [hg, BTCAsset.record, countNotifyReceived_append, countStop_append,
          countNotifyReceived, countStop]

/-- C3, witness: the unsynced wallet on a backend where every request succeeds; the
requests made are the resolution of height 0 and the fetch of the resolved block. -/
theorem RescanBlocks_unsynced_witness :
    unsyncedIdle.IsSynced = false ∧
      (BTCAsset.RescanBlocks goodBackend unsyncedIdle).1 ≠ none ∧
      (BTCAsset.RescanBlocks goodBackend unsyncedIdle).2.syncData = unsyncedIdle.syncData ∧
      countNotifyReceived (BTCAsset.RescanBlocks goodBackend unsyncedIdle).2.calls
        = countNotifyReceived unsyncedIdle.calls ∧
      countStop (BTCAsset.RescanBlocks goodBackend unsyncedIdle).2.calls
        = countStop unsyncedIdle.calls ∧
      (BTCAsset.RescanBlocks goodBackend unsyncedIdle).2.calls
        = unsyncedIdle.calls ++ [Call.getBlockHash 0, Call.getBlock ⟨0⟩] :=
  ⟨rfl, RescanBlocks_unsynced goodBackend unsyncedIdle rfl⟩

/-! ## C4: two calls in a row -/

/-- C4, counterexample: after a successful `RescanBlocksFromHeight 10`, a second call
for a height the backend cannot resolve returns the resolution error, not the
invalid-state error. -/
theorem RescanBlocksFromHeight_second_unresolved :
    (BTCAsset.RescanBlocksFromHeight shortChainBackend syncedIdle 10).1 = none ∧
      (BTCAsset.RescanBlocksFromHeight shortChainBackend
        (BTCAsset.RescanBlocksFromHeight shortChainBackend syncedIdle 10).2 500).1
        = some (Error.backend 2) ∧
      (BTCAsset.RescanBlocksFromHeight shortChainBackend
        (BTCAsset.RescanBlocksFromHeight shortChainBackend syncedIdle 10).2 500).1
        ≠ some Error.invalid := by
  decide

/-- C4, amended: after a successful `RescanBlocksFromHeight h1`, whether or not the
goroutine it started has run its start step, a following `RescanBlocksFromHeight h2`
fails, registers no further address filter and leaves the wallet rescanning; its
error is the resolution error when the hash resolution for `h2` fails, the fetch
error when the block fetch fails, and the invalid-state error when both succeed. -/
theorem RescanBlocksFromHeight_twice (be : Backend) (asset : BTCAsset) (h1 h2 : Int)
    (ran : Bool)
    (hok : (BTCAsset.RescanBlocksFromHeight be asset h1).1 = none) :
    (BTCAsset.RescanBlocksFromHeight be
        ((BTCAsset.RescanBlocksFromHeight be asset h1).2.afterGoroutine ran) h2).1 ≠ none ∧
      countNotifyReceived (BTCAsset.RescanBlocksFromHeight be
        ((BTCAsset.RescanBlocksFromHeight be asset h1).2.afterGoroutine ran) h2).2.calls
        = countNotifyReceived
            ((BTCAsset.RescanBlocksFromHeight be asset h1).2.afterGoroutine ran).calls ∧
      (BTCAsset.RescanBlocksFromHeight be
        ((BTCAsset.RescanBlocksFromHeight be asset h1).2.afterGoroutine ran) h2).2.IsRescanning
        = true ∧
      (BTCAsset.RescanBlocksFromHeight be
        ((BTCAsset.RescanBlocksFromHeight be asset h1).2.afterGoroutine ran) h2).1 =
        match be.getBlockHash
            ((BTCAsset.RescanBlocksFromHeight be asset h1).2.afterGoroutine ran).calls h2 with
        | Except.error err => some err
        | Except.ok hash =>
            match be.getBlock
                (((BTCAsset.RescanBlocksFromHeight be asset h1).2.afterGoroutine ran).calls
                  ++ [Call.getBlockHash h2]) hash with
            | Except.error err => some err
            | Except.ok _ => some Error.invalid := by
  have hmid : ((BTCAsset.RescanBlocksFromHeight be asset h1).2.afterGoroutine ran).IsRescanning
      = true := by
    have h0 := RescanBlocksFromHeight_ok be asset h1 hok
    cases ran
    · simpa [BTCAsset.afterGoroutine] using h0
    · simpa [BTCAsset.afterGoroutine, startNotifications_isRescan] using h0
  generalize (BTCAsset.RescanBlocksFromHeight be asset h1).2.afterGoroutine ran = mid at hmid ⊢
  have hflag : mid.syncData.isRescan = true := by
    simpa [BTCAsset.IsRescanning] using hmid
  rw [RescanBlocksFromHeight_blocked be mid h2 (Or.inl hmid)]
  cases hh : be.getBlockHash mid.calls h2 with
  | error e =>
      simp [BTCAsset.record, countNotifyReceived_append, countNotifyReceived,
        BTCAsset.IsRescanning, hflag]
  | ok hash =>
      cases hg : be.getBlock (mid.calls ++ [Call.getBlockHash h2]) hash <;>
        simp [hg, BTCAsset.record, countNotifyReceived_append, countNotifyReceived,
          BTCAsset.IsRescanning, hflag]

/-- C4, witness: two rescans in a row; the second is rejected with the invalid-state
error on a backend where every request succeeds, and with the resolution error for a
height above the tip of the short chain. -/
theorem RescanBlocksFromHeight_twice_witness :
    (BTCAsset.RescanBlocksFromHeight goodBackend syncedIdle 10).1 = none ∧
      (BTCAsset.RescanBlocksFromHeight goodBackend
        ((BTCAsset.RescanBlocksFromHeight goodBackend syncedIdle 10).2.afterGoroutine true)
        20).1 = some Error.invalid ∧
      (BTCAsset.RescanBlocksFromHeight shortChainBackend
        ((BTCAsset.RescanBlocksFromHeight shortChainBackend syncedIdle 10).2.afterGoroutine
          false)
        500).1 = some (Error.backend 2) :=
  ⟨by decide,
    (RescanBlocksFromHeight_twice goodBackend syncedIdle 10 20 true (by decide)).2.2.2,
    (RescanBlocksFromHeight_twice shortChainBackend syncedIdle 10 500 false
      (by decide)).2.2.2⟩

/-! ## C5: the state check of the core routine -/

/-- C5: `rescanBlocks` returns the invalid-state error whenever the wallet is
rescanning or not synced, for every start hash and address set; in particular for an
absent start hash, so the state check comes before the start-hash validation. -/
theorem rescanBlocks_invalid_state (be : Backend) (asset : BTCAsset)
    (startHash : Option Hash) (addrs : Option (List Address))
    (h : asset.IsRescanning = true ∨ asset.IsSynced = false) :
    (BTCAsset.rescanBlocks be asset startHash addrs).1 = some Error.invalid ∧
      (BTCAsset.rescanBlocks be asset none addrs).1 = some Error.invalid := by
  rw [rescanBlocks_blocked be asset startHash addrs h, rescanBlocks_blocked be asset none addrs h]
  exact ⟨rfl, rfl⟩

/-- C5, witness: an unsynced wallet called with an absent start hash. -/
theorem rescanBlocks_invalid_state_witness :
    (unsyncedIdle.IsRescanning = true ∨ unsyncedIdle.IsSynced = false) ∧
      (BTCAsset.rescanBlocks goodBackend unsyncedIdle none (some [⟨1⟩])).1
        = some Error.invalid :=
  ⟨Or.inr rfl,
    (rescanBlocks_invalid_state goodBackend unsyncedIdle none (some [⟨1⟩]) (Or.inr rfl)).1⟩

/-! ## C6: absent start hash -/

/-- C6: on a synced, idle wallet `rescanBlocks` with an absent start hash returns the
validation error, which is not the invalid-state error, leaves the wallet not
rescanning and sends nothing to the backend, so no address filter is registered. -/
theorem rescanBlocks_missing_hash (be : Backend) (asset : BTCAsset)
    (addrs : Option (List Address))
    (hs : asset.IsSynced = true) (hr : asset.IsRescanning = false) :
    (BTCAsset.rescanBlocks be asset none addrs).1
        = some (Error.text "block hash from where to start rescanning must be provided") ∧
      (BTCAsset.rescanBlocks be asset none addrs).1 ≠ some Error.invalid ∧
      (BTCAsset.rescanBlocks be asset none addrs).2.IsRescanning = false ∧
      (BTCAsset.rescanBlocks be asset none addrs).2.calls = asset.calls ∧
      countNotifyReceived (BTCAsset.rescanBlocks be asset none addrs).2.calls
        = countNotifyReceived asset.calls := by
  simp [BTCAsset.rescanBlocks, hs, hr]

/-- C6, witness: the synced idle wallet, absent hash, one address. -/
theorem rescanBlocks_missing_hash_witness :
    syncedIdle.IsSynced = true ∧ syncedIdle.IsRescanning = false ∧
      (BTCAsset.rescanBlocks goodBackend syncedIdle none (some [⟨3⟩])).1
        ≠ some Error.invalid ∧
      (BTCAsset.rescanBlocks goodBackend syncedIdle none (some [⟨3⟩])).2.IsRescanning
        = false :=
  ⟨rfl, rfl,
    (rescanBlocks_missing_hash goodBackend syncedIdle (some [⟨3⟩]) rfl rfl).2.1,
    (rescanBlocks_missing_hash goodBackend syncedIdle (some [⟨3⟩]) rfl rfl).2.2.1⟩

/-- What `RescanBlocksFromHeight` does on a synced, idle wallet once the height is
resolved and the block fetched. -/
theorem RescanBlocksFromHeight_ready (be : Backend) (asset : BTCAsset) (h : Int)
    (hash : Hash) (block : Block)
    (hs : asset.IsSynced = true) (hr : asset.IsRescanning = false)
    (hh : be.getBlockHash asset.calls h = Except.ok hash)
    (hg : be.getBlock (asset.calls ++ [Call.getBlockHash h]) hash = Except.ok block) :
    BTCAsset.RescanBlocksFromHeight be asset h =
      match be.notifyReceived (asset.calls ++ [Call.getBlockHash h, Call.getBlock hash]) [] with
      | some err =>
          (some err,
            { asset with
              syncData := { asset.syncData with isRescan := true }
              calls := asset.calls
                ++ [Call.getBlockHash h, Call.getBlock hash, Call.notifyReceived []] })
      | none =>
          (none,
            { asset with
              syncData := { asset.syncData with isRescan := true }
              calls := asset.calls
                ++ [Call.getBlockHash h, Call.getBlock hash, Call.notifyReceived []]
              goroutines := asset.goroutines + 1 }) := by
  rw [RescanBlocksFromHeight_cases]
  simp only [hh, hg]
  rw [rescanBlocks_ready be _ block.blockHash none
    (by simpa [BTCAsset.IsSynced, BTCAsset.record] using hs)
    (by simpa [BTCAsset.IsRescanning, BTCAsset.record] using hr)]
  simp [BTCAsset.record]

/-! ## C7: a successful rescan request -/

/-- C7: on a synced, idle wallet, when hash resolution, block fetch and filter
registration all succeed, `RescanBlocksFromHeight` returns no error and the wallet
is rescanning on return.  The returned state is the one in which the goroutine has
not run (one more pending goroutine, no handler invocation, `syncstarted` as
before), and the flag is still set after the goroutine has run its start step. -/
theorem RescanBlocksFromHeight_success (be : Backend) (asset : BTCAsset) (h : Int)
    (hash : Hash) (block : Block)
    (hs : asset.IsSynced = true) (hr : asset.IsRescanning = false)
    (hh : be.getBlockHash asset.calls h = Except.ok hash)
    (hg : be.getBlock (asset.calls ++ [Call.getBlockHash h]) hash = Except.ok block)
    (hn : be.notifyReceived (asset.calls ++ [Call.getBlockHash h, Call.getBlock hash]) []
      = none) :
    (BTCAsset.RescanBlocksFromHeight be asset h).1 = none ∧
      (BTCAsset.RescanBlocksFromHeight be asset h).2.IsRescanning = true ∧
      (BTCAsset.RescanBlocksFromHeight be asset h).2.goroutines = asset.goroutines + 1 ∧
      (BTCAsset.RescanBlocksFromHeight be asset h).2.handlerRuns = asset.handlerRuns ∧
      (BTCAsset.RescanBlocksFromHeight be asset h).2.syncData.syncstarted
        = asset.syncData.syncstarted ∧
      ∀ ran, ((BTCAsset.RescanBlocksFromHeight be asset h).2.afterGoroutine ran).IsRescanning
        = true := by
  rw [RescanBlocksFromHeight_ready be asset h hash block hs hr hh hg]
  rw [hn]
  refine ⟨rfl, rfl, rfl, rfl, rfl, ?_⟩
  intro ran
  cases ran
  · rfl
  · simp only [BTCAsset.afterGoroutine, if_true, startNotifications_isRescan]
    rfl

/-- C7, witness: the synced idle wallet rescanning from height 100000. -/
theorem RescanBlocksFromHeight_success_witness :
    syncedIdle.IsSynced = true ∧ syncedIdle.IsRescanning = false ∧
      (BTCAsset.RescanBlocksFromHeight goodBackend syncedIdle 100000).1 = none ∧
      (BTCAsset.RescanBlocksFromHeight goodBackend syncedIdle 100000).2.IsRescanning = true :=
  ⟨rfl, rfl,
    (RescanBlocksFromHeight_success goodBackend syncedIdle 100000 ⟨100000⟩ ⟨⟨100000⟩, 0⟩
      rfl rfl rfl rfl rfl).1,
    (RescanBlocksFromHeight_success goodBackend syncedIdle 100000 ⟨100000⟩ ⟨⟨100000⟩, 0⟩
      rfl rfl rfl rfl rfl).2.1⟩

/-! ## C8: one filter registration, with the empty address list -/

/-- C8, counterexample: on the synced idle wallet the height 5 resolves, the block
fetch fails, and `RescanBlocksFromHeight` returns without any filter registration:
`NotifyReceived` is invoked zero times, not once. -/
theorem RescanBlocksFromHeight_fetch_fails_no_registration :
    syncedIdle.IsSynced = true ∧ syncedIdle.IsRescanning = false ∧
      fetchFailBackend.getBlockHash syncedIdle.calls 5 = Except.ok ⟨5⟩ ∧
      (BTCAsset.RescanBlocksFromHeight fetchFailBackend syncedIdle 5).2.calls
        = [Call.getBlockHash 5, Call.getBlock ⟨5⟩] ∧
      countNotifyReceived (BTCAsset.RescanBlocksFromHeight fetchFailBackend syncedIdle 5).2.calls
        = 0 ∧
      countNotifyReceived (BTCAsset.RescanBlocksFromHeight fetchFailBackend syncedIdle 5).2.calls
        ≠ countNotifyReceived syncedIdle.calls + 1 :=
  ⟨rfl, rfl, rfl, by decide, by decide, by decide⟩

/-- C8, amended: on a synced, idle wallet and a height whose hash resolution
succeeds, one call of `RescanBlocksFromHeight` sends, when the block fetch succeeds,
exactly the requests `GetBlockHash`, `GetBlock`, `NotifyReceived []`: the filter
registration happens exactly once, with the empty address list, whatever the backend
answers to it; when the block fetch fails it sends exactly `GetBlockHash`, `GetBlock`
and no filter registration. -/
theorem RescanBlocksFromHeight_registers_once (be : Backend) (asset : BTCAsset) (h : Int)
    (hash : Hash)
    (hs : asset.IsSynced = true) (hr : asset.IsRescanning = false)
    (hh : be.getBlockHash asset.calls h = Except.ok hash) :
    (BTCAsset.RescanBlocksFromHeight be asset h).2.calls =
        (match be.getBlock (asset.calls ++ [Call.getBlockHash h]) hash with
        | Except.ok _ =>
            asset.calls ++ [Call.getBlockHash h, Call.getBlock hash, Call.notifyReceived []]
        | Except.error _ => asset.calls ++ [Call.getBlockHash h, Call.getBlock hash]) ∧
      countNotifyReceived [Call.getBlockHash h, Call.getBlock hash, Call.notifyReceived []]
        = 1 ∧
      countNotifyReceived (BTCAsset.RescanBlocksFromHeight be asset h).2.calls =
        (match be.getBlock (asset.calls ++ [Call.getBlockHash h]) hash with
        | Except.ok _ => countNotifyReceived asset.calls + 1
        | Except.error _ => countNotifyReceived asset.calls) := by
  cases hg : be.getBlock (asset.calls ++ [Call.getBlockHash h]) hash with
  | error e =>
      rw [RescanBlocksFromHeight_cases]
      simp [hh, hg, BTCAsset.record, countNotifyReceived_append, countNotifyReceived]
  | ok block =>
      rw [RescanBlocksFromHeight_ready be asset h hash block hs hr hh hg]
      cases be.notifyReceived (asset.calls ++ [Call.getBlockHash h, Call.getBlock hash]) [] <;>
        simp [countNotifyReceived_append, countNotifyReceived]

/-- C8, witness: the synced idle wallet on a backend that rejects the registration,
and on a backend that cannot deliver the block. -/
theorem RescanBlocksFromHeight_registers_once_witness :
    syncedIdle.IsSynced = true ∧ syncedIdle.IsRescanning = false ∧
      (BTCAsset.RescanBlocksFromHeight rejectingBackend syncedIdle 100000).2.calls
        = [Call.getBlockHash 100000, Call.getBlock ⟨100000⟩, Call.notifyReceived []] ∧
      countNotifyReceived (BTCAsset.RescanBlocksFromHeight rejectingBackend syncedIdle 100000).2.calls
        = 1 ∧
      countNotifyReceived (BTCAsset.RescanBlocksFromHeight fetchFailBackend syncedIdle 100000).2.calls
        = 0 :=
  ⟨rfl, rfl,
    (RescanBlocksFromHeight_registers_once rejectingBackend syncedIdle 100000 ⟨100000⟩
      rfl rfl rfl).1,
    (RescanBlocksFromHeight_registers_once rejectingBackend syncedIdle 100000 ⟨100000⟩
      rfl rfl rfl).2.2,
    (RescanBlocksFromHeight_registers_once fetchFailBackend syncedIdle 100000 ⟨100000⟩
      rfl rfl rfl).2.2⟩

/-! ## C9, C10: cancelling -/

/-- C9: for every wallet state, after `CancelRescan` the wallet is not rescanning,
and the call sent exactly one request to the backend, a `Stop`. -/
theorem CancelRescan_clears_and_stops (asset : BTCAsset) :
    asset.CancelRescan.IsRescanning = false ∧
      asset.CancelRescan.calls = asset.calls ++ [Call.stop] ∧
      countStop [Call.stop] = 1 ∧
      countStop asset.CancelRescan.calls = countStop asset.calls + 1 := by
  simp [BTCAsset.CancelRescan, BTCAsset.Stop, BTCAsset.record, BTCAsset.IsRescanning,
    countStop_append, countStop]

/-- C10: `CancelRescan` is idempotent on the sync state: called twice in a row it
leaves the sync state of a single call, and called when no rescan is active it
leaves the wallet not rescanning with the sync state it had.  The method has no
error result. -/
theorem CancelRescan_idempotent (asset : BTCAsset) :
    asset.CancelRescan.CancelRescan.syncData = asset.CancelRescan.syncData ∧
      (asset.IsRescanning = false →
        asset.CancelRescan.IsRescanning = false ∧
          asset.CancelRescan.syncData = asset.syncData) := by
  refine ⟨rfl, fun h => ⟨rfl, ?_⟩⟩
  cases asset with
  | mk sd l c g r =>
      cases sd with
      | mk a b c =>
          simp only [BTCAsset.IsRescanning] at h
          simp [BTCAsset.CancelRescan, BTCAsset.Stop, BTCAsset.record, h]

/-- C10, witness: cancelling on the idle wallet, once and twice. -/
theorem CancelRescan_idempotent_witness :
    syncedIdle.IsRescanning = false ∧
      syncedIdle.CancelRescan.IsRescanning = false ∧
      syncedIdle.CancelRescan.syncData = syncedIdle.syncData ∧
      syncedRescanning.CancelRescan.CancelRescan.syncData
        = syncedRescanning.CancelRescan.syncData :=
  ⟨rfl, ((CancelRescan_idempotent syncedIdle).2 rfl).1,
    ((CancelRescan_idempotent syncedIdle).2 rfl).2,
    (CancelRescan_idempotent syncedRescanning).1⟩

/-! ## C11: the rescanning flag is only set on a synced wallet -/

/-- No operation turns the rescanning flag on from an unsynced wallet. -/
theorem Op.apply_sets_flag (be : Backend) (asset : BTCAsset) (op : Op)
    (hr : asset.IsRescanning = false) (hpost : (Op.apply be asset op).IsRescanning = true) :
    asset.IsSynced = true := by
  cases hs : asset.IsSynced with
  | true => rfl
  | false =>
      exfalso
      have hflag : asset.syncData.isRescan = false := by
        simpa [BTCAsset.IsRescanning] using hr
      have hfrom : ∀ h, (BTCAsset.RescanBlocksFromHeight be asset h).2.IsRescanning = false := by
        intro h
        rw [RescanBlocksFromHeight_blocked be asset h (Or.inr hs)]
        cases hh : be.getBlockHash asset.calls h with
        | error e => simp [BTCAsset.record, BTCAsset.IsRescanning, hflag]
        | ok hash =>
            cases hg : be.getBlock (asset.calls ++ [Call.getBlockHash h]) hash <;>
              simp [hg, BTCAsset.record, BTCAsset.IsRescanning, hflag]
      cases op with
      | rescanBlocks sh addrs =>
          simp only [Op.apply, rescanBlocks_blocked be asset sh addrs (Or.inr hs)] at hpost
          rw [hr] at hpost
          cases hpost
      | rescanBlocksFromHeight h =>
          simp only [Op.apply, hfrom h] at hpost
          cases hpost
      | rescanAll =>
          simp only [Op.apply, BTCAsset.RescanBlocks, hfrom 0] at hpost
          cases hpost
      | cancelRescan =>
          simp [Op.apply, BTCAsset.CancelRescan, BTCAsset.Stop, BTCAsset.record,
            BTCAsset.IsRescanning] at hpost
      | goroutine =>
          simp only [Op.apply, startNotifications_isRescan, hr] at hpost
          cases hpost

/-- The ghost flag is true whenever the wallet is rescanning, along every run. -/
theorem trackRun_flag (be : Backend) (ops : List Op) (st : BTCAsset × Bool)
    (h : st.1.IsRescanning = true → st.2 = true) :
    (trackRun be st ops).1.IsRescanning = true → (trackRun be st ops).2 = true := by
  induction ops generalizing st with
  | nil => simpa [trackRun] using h
  | cons op rest ih =>
      have hstep : (trackStep be st op).1.IsRescanning = true → (trackStep be st op).2 = true := by
        intro hpost
        simp only [trackStep] at hpost ⊢
        cases hr : st.1.IsRescanning with
        | true => simpa [hr] using h hr
        | false => simpa [hr, hpost] using Op.apply_sets_flag be st.1 op hr hpost
      simpa [trackRun] using ih (trackStep be st op) hstep

/-- C11: no operation of `rescan.go` (`rescanBlocks`, `RescanBlocksFromHeight`,
`RescanBlocks`, `CancelRescan`, the goroutine body) sets `isRescan` from a state in
which `IsSynced()` is false; hence in every state reached from an idle wallet by any
sequence of these operations, if `isRescan` is true then the wallet was synced at
the moment the flag was set. -/
theorem isRescan_set_only_when_synced (be : Backend) (asset : BTCAsset) (g : Bool)
    (ops : List Op) (h0 : asset.IsRescanning = false) :
    (∀ (a : BTCAsset) (op : Op), a.IsSynced = false → a.IsRescanning = false →
        (Op.apply be a op).IsRescanning = false) ∧
      ((trackRun be (asset, g) ops).1.IsRescanning = true →
        (trackRun be (asset, g) ops).2 = true) := by
  refine ⟨?_, ?_⟩
  · intro a op hs hr
    cases hpost : (Op.apply be a op).IsRescanning with
    | false => rfl
    | true =>
        have := Op.apply_sets_flag be a op hr hpost
        rw [hs] at this
        cases this
  · apply trackRun_flag
    intro h
    rw [h0] at h
    cases h

/-- C11, witness: an idle synced wallet that is rescanned, cancelled, and rescanned
again after the goroutine ran; the ghost flag starts false and ends true. -/
theorem isRescan_set_only_when_synced_witness :
    syncedIdle.IsRescanning = false ∧
      (trackRun goodBackend (syncedIdle, false)
        [Op.rescanBlocksFromHeight 7, Op.goroutine, Op.cancelRescan, Op.rescanAll]).1.IsRescanning
        = true ∧
      (trackRun goodBackend (syncedIdle, false)
        [Op.rescanBlocksFromHeight 7, Op.goroutine, Op.cancelRescan, Op.rescanAll]).2
        = true :=
  ⟨rfl, by decide,
    (isRescan_set_only_when_synced goodBackend syncedIdle false
      [Op.rescanBlocksFromHeight 7, Op.goroutine, Op.cancelRescan, Op.rescanAll] rfl).2
      (by decide)⟩

/-! ## C12: the registration error is returned as it is -/

/-- C12: on a synced, idle wallet with a start hash, when `NotifyReceived` fails with
error `e`, `rescanBlocks` returns exactly `e`. -/
theorem rescanBlocks_returns_registration_error (be : Backend) (asset : BTCAsset)
    (hash : Hash) (addrs : Option (List Address)) (e : Error)
    (hs : asset.IsSynced = true) (hr : asset.IsRescanning = false)
    (hn : be.notifyReceived asset.calls (addrs.getD []) = some e) :
    (BTCAsset.rescanBlocks be asset (some hash) addrs).1 = some e := by
  rw [rescanBlocks_ready be asset hash addrs hs hr, hn]

/-- C12, witness: the rejecting backend answers `backend 1`, and that is returned. -/
theorem rescanBlocks_returns_registration_error_witness :
    syncedIdle.IsSynced = true ∧ syncedIdle.IsRescanning = false ∧
      (BTCAsset.rescanBlocks rejectingBackend syncedIdle (some ⟨7⟩) (some [⟨1⟩, ⟨2⟩])).1
        = some (Error.backend 1) :=
  ⟨rfl, rfl,
    rescanBlocks_returns_registration_error rejectingBackend syncedIdle ⟨7⟩ (some [⟨1⟩, ⟨2⟩])
      (Error.backend 1) rfl rfl rfl⟩

/-! ## C13, C14: starting the notification handler -/

/-- Counting a value in a list after one entry was replaced. -/
theorem count_set_of_getElem (l : List Pc) (i : Nat) (old new target : Pc)
    (h : l[i]? = some old) :
    (l.set i new).count target + (if old = target then 1 else 0)
      = l.count target + (if new = target then 1 else 0) := by
  obtain ⟨hi, hget⟩ := List.getElem?_eq_some.mp h
  rw [List.count_set new target l i hi, hget]
  by_cases ho : old = target
  · have hmem : target ∈ l := by
      rw [← ho, ← hget]
      exact List.getElem_mem hi
    have hpos : 0 < l.count target := List.count_pos_iff.mpr hmem
    by_cases hnew : new = target <;> simp [ho, hnew] <;> omega
  · by_cases hnew : new = target <;> simp [ho, hnew]

/-- In a pool where nothing has run, no goroutine is past the compare-and-swap. -/
theorem Pool.untouched_counts (p : Pool) (h : p.untouched = true) :
    p.pcs.count Pc.swapped = 0 ∧ p.pcs.count Pc.handling = 0 := by
  simp only [Pool.untouched, List.all_eq_true, beq_iff_eq] at h
  constructor <;>
    exact List.count_eq_zero.mpr (fun hmem => by have := h _ hmem; cases this)

/-- Every atomic step keeps the invariant of the pool. -/
theorem Pool.step_inv (h0 : Nat) (p : Pool) (i : Nat) (hinv : Pool.Inv h0 p) :
    Pool.Inv h0 (p.step i) := by
  unfold Pool.step
  split
  · rename_i hget
    have hsw := count_set_of_getElem p.pcs i Pc.ready Pc.swapped Pc.swapped hget
    have hsh := count_set_of_getElem p.pcs i Pc.ready Pc.swapped Pc.handling hget
    have hkw := count_set_of_getElem p.pcs i Pc.ready Pc.skipped Pc.swapped hget
    have hkh := count_set_of_getElem p.pcs i Pc.ready Pc.skipped Pc.handling hget
    simp at hsw hsh hkw hkh
    rcases hinv with ⟨hs, hall, hh⟩ | ⟨hs, hc, hh⟩
    · have hcas : compareAndSwapInt32 p.asset.syncData.syncstarted stop start = (start, true) := by
        simp [compareAndSwapInt32, hs]
      obtain ⟨h1, h2⟩ := Pool.untouched_counts p hall
      rw [hcas]
      right
      refine ⟨rfl, ?_, ?_⟩
      · simp only [Pool.transitions]
        omega
      · simp only []
        omega
    · have hcas : compareAndSwapInt32 p.asset.syncData.syncstarted stop start = (start, false) := by
        simp [compareAndSwapInt32, hs, start, stop]
      rw [hcas]
      right
      simp only [Pool.transitions] at hc
      refine ⟨hs, ?_, ?_⟩
      · simp only [Pool.transitions]
        omega
      · simp only []
        omega
  · rename_i hget
    have hw := count_set_of_getElem p.pcs i Pc.swapped Pc.handling Pc.swapped hget
    have hh2 := count_set_of_getElem p.pcs i Pc.swapped Pc.handling Pc.handling hget
    simp at hw hh2
    rcases hinv with ⟨hs, hall, hh⟩ | ⟨hs, hc, hh⟩
    · obtain ⟨h1, h2⟩ := Pool.untouched_counts p hall
      omega
    · right
      simp only [Pool.transitions] at hc
      refine ⟨hs, ?_, ?_⟩
      · simp only [Pool.transitions]
        omega
      · simp only []
        omega
  · exact hinv

/-- Every interleaving keeps the invariant of the pool. -/
theorem Pool.run_inv (h0 : Nat) (sched : List Nat) (p : Pool) (hinv : Pool.Inv h0 p) :
    Pool.Inv h0 (p.run sched) := by
  induction sched generalizing p with
  | nil => simpa [Pool.run] using hinv
  | cons i rest ih => simpa [Pool.run] using ih (p.step i) (Pool.step_inv h0 p i hinv)

/-- The number of goroutines does not change along an interleaving. -/
theorem Pool.run_length (sched : List Nat) (p : Pool) :
    (p.run sched).pcs.length = p.pcs.length := by
  induction sched generalizing p with
  | nil => rfl
  | cons i rest ih =>
      have hstep : (p.step i).pcs.length = p.pcs.length := by
        unfold Pool.step
        split
        · split <;> simp
        · simp
        · rfl
      simpa [Pool.run, hstep] using ih (p.step i)

/-- The goroutines after one step: goroutine `j` moves on, the others stay. -/
theorem Pool.step_pcs (p : Pool) (j : Nat) :
    (p.step j).pcs =
      match p.pcs[j]? with
      | some Pc.ready =>
          p.pcs.set j (if p.asset.syncData.syncstarted = stop then Pc.swapped else Pc.skipped)
      | some Pc.swapped => p.pcs.set j Pc.handling
      | _ => p.pcs := by
  cases hget : p.pcs[j]? with
  | none => simp [Pool.step, hget]
  | some pc =>
      cases pc with
      | ready =>
          by_cases hs : p.asset.syncData.syncstarted = stop <;>
            simp [Pool.step, hget, compareAndSwapInt32, hs]
      | swapped => simp [Pool.step, hget]
      | handling => simp [Pool.step, hget]
      | skipped => simp [Pool.step, hget]

/-- Replacing an entry by one of higher rank lowers no rank. -/
theorem Pc.rankOpt_set_mono (l : List Pc) (i j : Nat) (old new : Pc)
    (h : l[j]? = some old) (hr : old.rank ≤ new.rank) :
    Pc.rankOpt l[i]? ≤ Pc.rankOpt (l.set j new)[i]? := by
  rw [List.getElem?_set]
  by_cases hji : j = i
  · subst hji
    have hlt : j < l.length := (List.getElem?_eq_some.mp h).1
    simp only [hlt, if_true, h, Pc.rankOpt]
    exact hr
  · simp [hji]

/-- The rank of the replaced entry. -/
theorem Pc.rankOpt_set_self (l : List Pc) (j : Nat) (old new : Pc) (h : l[j]? = some old) :
    Pc.rankOpt (l.set j new)[j]? = new.rank := by
  have hlt : j < l.length := (List.getElem?_eq_some.mp h).1
  rw [List.getElem?_set]
  simp [hlt, Pc.rankOpt]

/-- No step moves a goroutine backwards. -/
theorem Pool.step_rank_mono (p : Pool) (i j : Nat) :
    p.rankAt i ≤ (p.step j).rankAt i := by
  simp only [Pool.rankAt, Pool.step_pcs]
  cases hget : p.pcs[j]? with
  | none => exact Nat.le_refl _
  | some pc =>
      cases pc with
      | ready =>
          by_cases hs : p.asset.syncData.syncstarted = stop
          · simpa [hs] using Pc.rankOpt_set_mono p.pcs i j Pc.ready Pc.swapped hget (by decide)
          · simpa [hs] using Pc.rankOpt_set_mono p.pcs i j Pc.ready Pc.skipped hget (by decide)
      | swapped => exact Pc.rankOpt_set_mono p.pcs i j Pc.swapped Pc.handling hget (by decide)
      | handling => exact Nat.le_refl _
      | skipped => exact Nat.le_refl _

/-- A step of goroutine `i` moves it on by one, unless it is complete. -/
theorem Pool.step_rank_self (p : Pool) (i : Nat) :
    min 2 (p.rankAt i + 1) ≤ (p.step i).rankAt i := by
  simp only [Pool.rankAt, Pool.step_pcs]
  cases hget : p.pcs[i]? with
  | none => simp [Pc.rankOpt, hget]
  | some pc =>
      cases pc with
      | ready =>
          by_cases hs : p.asset.syncData.syncstarted = stop
          · simp only [hs, if_true, Pc.rankOpt_set_self p.pcs i Pc.ready Pc.swapped hget]
            decide
          · simp only [hs, if_false, Pc.rankOpt_set_self p.pcs i Pc.ready Pc.skipped hget]
            decide
      | swapped =>
          simp only [Pc.rankOpt_set_self p.pcs i Pc.swapped Pc.handling hget]
          decide
      | handling => simp [Pc.rankOpt, hget, Pc.rank]
      | skipped => simp [Pc.rankOpt, hget, Pc.rank]

/-- Along an interleaving, goroutine `i` has moved on by the number of its steps, up
to completion. -/
theorem Pool.run_rank (sched : List Nat) (p : Pool) (i : Nat) :
    min 2 (p.rankAt i + sched.count i) ≤ (p.run sched).rankAt i := by
  induction sched generalizing p with
  | nil => simp [Pool.run]
  | cons j rest ih =>
      have hrest := ih (p.step j)
      have hrun : Pool.run p (j :: rest) = Pool.run (p.step j) rest := rfl
      rw [hrun, List.count_cons]
      by_cases hji : j = i
      · subst hji
        have hself := Pool.step_rank_self p j
        simp only [beq_self_eq_true, if_true]
        omega
      · have hmono := Pool.step_rank_mono p i j
        have hne : (j == i) = false := by simpa using hji
        simp only [hne]
        simp only [Bool.false_eq_true, if_false]
        omega

/-- A pool in which every goroutine has rank 2 is finished. -/
theorem Pool.finished_of_rank (p : Pool) (h : ∀ i, i < p.pcs.length → 2 ≤ p.rankAt i) :
    p.finished = true := by
  simp only [Pool.finished, List.all_eq_true, Bool.or_eq_true, beq_iff_eq]
  intro pc hmem
  obtain ⟨i, hi, hget⟩ := List.getElem_of_mem hmem
  have hr := h i hi
  have hsome : p.pcs[i]? = some pc := by
    rw [List.getElem?_eq_getElem hi, hget]
  simp only [Pool.rankAt, hsome, Pc.rankOpt] at hr
  cases pc with
  | ready => simp [Pc.rank] at hr
  | swapped => simp [Pc.rank] at hr
  | handling => exact Or.inl rfl
  | skipped => exact Or.inr rfl

/-- In a pool where nothing has run every goroutine has rank 0. -/
theorem Pool.untouched_rank (p : Pool) (h : p.untouched = true) (i : Nat)
    (hi : i < p.pcs.length) : p.rankAt i = 0 := by
  simp only [Pool.untouched, List.all_eq_true, beq_iff_eq] at h
  have hpc := h p.pcs[i] (List.getElem_mem hi)
  simp [Pool.rankAt, List.getElem?_eq_getElem hi, Pc.rankOpt, hpc, Pc.rank]

/-- C13: from `syncstarted = stop`, for every number `n ≥ 1` of goroutines started by
`rescanBlocks` and every interleaving `sched` of their atomic steps: at most one
goroutine makes the transition from `stop` to `start`; as soon as one of the `n`
goroutines occurs in the interleaving exactly one has made it and `syncstarted` is
`start`; and when every goroutine gets its two steps (the compare-and-swap and the
handler call) all of them complete, exactly one has made the transition, exactly
that one has called `handleNotifications`, and the handler was called once. -/
theorem single_flight_start (asset : BTCAsset) (n : Nat) (sched : List Nat) (hn : 1 ≤ n)
    (hstop : asset.syncData.syncstarted = stop) :
    (Pool.run (Pool.init asset n) sched).transitions ≤ 1 ∧
      ((Pool.run (Pool.init asset n) sched).untouched = true ∨
        (Pool.run (Pool.init asset n) sched).transitions = 1) ∧
      ((Pool.run (Pool.init asset n) sched).finished = true →
        (Pool.run (Pool.init asset n) sched).transitions = 1 ∧
          (Pool.run (Pool.init asset n) sched).pcs.count Pc.handling = 1 ∧
          (Pool.run (Pool.init asset n) sched).asset.handlerRuns = asset.handlerRuns + 1 ∧
          (Pool.run (Pool.init asset n) sched).asset.syncData.syncstarted = start) ∧
      ((∃ i, i < n ∧ i ∈ sched) →
        (Pool.run (Pool.init asset n) sched).transitions = 1 ∧
          (Pool.run (Pool.init asset n) sched).asset.syncData.syncstarted = start) ∧
      ((∀ i, i < n → 2 ≤ sched.count i) →
        (Pool.run (Pool.init asset n) sched).finished = true ∧
          (Pool.run (Pool.init asset n) sched).transitions = 1 ∧
          (Pool.run (Pool.init asset n) sched).pcs.count Pc.handling = 1 ∧
          (Pool.run (Pool.init asset n) sched).pcs.count Pc.swapped = 0 ∧
          (Pool.run (Pool.init asset n) sched).asset.handlerRuns = asset.handlerRuns + 1 ∧
          (Pool.run (Pool.init asset n) sched).asset.syncData.syncstarted = start) := by
  have hinit : Pool.Inv asset.handlerRuns (Pool.init asset n) :=
    Or.inl ⟨hstop, by simp [Pool.untouched, Pool.init], rfl⟩
  have hinv := Pool.run_inv asset.handlerRuns sched (Pool.init asset n) hinit
  have hlen : (Pool.run (Pool.init asset n) sched).pcs.length = n := by
    rw [Pool.run_length]
    simp [Pool.init]
  have hrank := Pool.run_rank sched (Pool.init asset n)
  generalize Pool.run (Pool.init asset n) sched = q at hinv hlen hrank
  have hfinished : q.finished = true →
      q.transitions = 1 ∧ q.pcs.count Pc.handling = 1 ∧ q.pcs.count Pc.swapped = 0 ∧
        q.asset.handlerRuns = asset.handlerRuns + 1 ∧ q.asset.syncData.syncstarted = start := by
    intro hfin
    rcases hinv with ⟨hs, hall, hh⟩ | ⟨hs, hc, hh⟩
    · exfalso
      cases hq : q.pcs with
      | nil => simp [hq] at hlen; omega
      | cons pc rest =>
          simp only [Pool.untouched, Pool.finished, hq, List.all_cons, Bool.and_eq_true,
            beq_iff_eq, Bool.or_eq_true] at hall hfin
          rcases hfin.1 with h | h <;> rw [hall.1] at h <;> cases h
    · have hsw : q.pcs.count Pc.swapped = 0 := by
        simp only [Pool.finished, List.all_eq_true, Bool.or_eq_true, beq_iff_eq] at hfin
        exact List.count_eq_zero.mpr (fun hmem => by
          rcases hfin _ hmem with h | h <;> cases h)
      simp only [Pool.transitions] at hc
      exact ⟨by simp only [Pool.transitions]; omega, by omega, hsw, by omega, hs⟩
  have hstarted : (∃ i, i < n ∧ i ∈ sched) →
      q.transitions = 1 ∧ q.asset.syncData.syncstarted = start := by
    rintro ⟨i, hi, hmem⟩
    have hpos : 0 < sched.count i := List.count_pos_iff.mpr hmem
    have hri := hrank i
    rcases hinv with ⟨hs, hall, hh⟩ | ⟨hs, hc, hh⟩
    · have h0 := Pool.untouched_rank q hall i (by omega)
      omega
    · exact ⟨hc, hs⟩
  refine ⟨?_, ?_, ?_, hstarted, ?_⟩
  · rcases hinv with ⟨hs, hall, hh⟩ | ⟨hs, hc, hh⟩
    · obtain ⟨h1, h2⟩ := Pool.untouched_counts q hall
      simp only [Pool.transitions]
      omega
    · omega
  · rcases hinv with ⟨hs, hall, hh⟩ | ⟨hs, hc, hh⟩
    · exact Or.inl hall
    · exact Or.inr hc
  · intro hfin
    obtain ⟨h1, h2, _, h4, h5⟩ := hfinished hfin
    exact ⟨h1, h2, h4, h5⟩
  · intro hall
    have hfin : q.finished = true := by
      apply Pool.finished_of_rank
      intro i hi
      have hri := hrank i
      have hc := hall i (by omega)
      omega
    obtain ⟨h1, h2, h3, h4, h5⟩ := hfinished hfin
    exact ⟨hfin, h1, h2, h3, h4, h5⟩

/-- C13, witness: three goroutines on the idle wallet, interleaved so that each gets
its two steps; the first to swap is goroutine 2, and it is the only one that calls
the handler. -/
theorem single_flight_start_witness :
    (∀ i, i < 3 → 2 ≤ [2, 0, 1, 2, 0, 1].count i) ∧
      (Pool.run (Pool.init syncedIdle 3) [2, 0, 1, 2, 0, 1]).pcs
        = [Pc.skipped, Pc.skipped, Pc.handling] ∧
      (Pool.run (Pool.init syncedIdle 3) [2, 0, 1, 2, 0, 1]).finished = true ∧
      (Pool.run (Pool.init syncedIdle 3) [2, 0, 1, 2, 0, 1]).transitions = 1 ∧
      (Pool.run (Pool.init syncedIdle 3) [2, 0, 1, 2, 0, 1]).asset.handlerRuns = 1 :=
  ⟨by decide, by decide,
    ((single_flight_start syncedIdle 3 [2, 0, 1, 2, 0, 1] (by decide) rfl).2.2.2.2
      (by decide)).1,
    ((single_flight_start syncedIdle 3 [2, 0, 1, 2, 0, 1] (by decide) rfl).2.2.2.2
      (by decide)).2.1,
    ((single_flight_start syncedIdle 3 [2, 0, 1, 2, 0, 1] (by decide) rfl).2.2.2.2
      (by decide)).2.2.2.2.1⟩

/-- C14: the goroutine body calls `handleNotifications` if and only if `syncstarted`
was `stop` when it ran; with `syncstarted` already `start` (or any value other than
`stop`) it leaves the wallet as it was; with `syncstarted = stop` its first atomic
step sets `syncstarted` to `start` while the handler has not been called yet, and the
handler call is the step after it. -/
theorem startNotifications_idempotent_start (asset : BTCAsset) :
    (asset.startNotifications.handlerRuns = asset.handlerRuns + 1 ↔
        asset.syncData.syncstarted = stop) ∧
      (asset.syncData.syncstarted = start → asset.startNotifications = asset) ∧
      (asset.syncData.syncstarted ≠ stop → asset.startNotifications = asset) ∧
      (asset.syncData.syncstarted = stop →
        asset.startNotifications.syncData.syncstarted = start ∧
          (Pool.step (Pool.init asset 1) 0).asset.syncData.syncstarted = start ∧
          (Pool.step (Pool.init asset 1) 0).asset.handlerRuns = asset.handlerRuns ∧
          (Pool.step (Pool.init asset 1) 0).pcs = [Pc.swapped]) ∧
      (Pool.run (Pool.init asset 1) [0, 0]).asset = asset.startNotifications := by
  by_cases hs : asset.syncData.syncstarted = stop
  · have hcas : compareAndSwapInt32 asset.syncData.syncstarted stop start = (start, true) := by
      simp [compareAndSwapInt32, hs]
    have hne : ¬ (stop = start) := by decide
    refine ⟨?_, ?_, ?_, ?_, ?_⟩
    · unfold BTCAsset.startNotifications
      rw [hcas]
      simp [hs]
    · intro h
      rw [hs] at h
      exact absurd h hne
    · intro h
      exact absurd hs h
    · intro _
      simp [BTCAsset.startNotifications, Pool.step, Pool.init, hcas]
    · simp [BTCAsset.startNotifications, Pool.run, Pool.step, Pool.init, hcas]
  · have hcas : compareAndSwapInt32 asset.syncData.syncstarted stop start
        = (asset.syncData.syncstarted, false) := by
      simp [compareAndSwapInt32, hs]
    refine ⟨?_, ?_, ?_, ?_, ?_⟩
    · simp [BTCAsset.startNotifications, hcas, hs]
    · intro _
      simp [BTCAsset.startNotifications, hcas]
    · intro _
      simp [BTCAsset.startNotifications, hcas]
    · intro h
      exact absurd h hs
    · simp [BTCAsset.startNotifications, Pool.run, Pool.step, Pool.init, hcas]

/-- C14, witness: the goroutine body on a stopped and on a started wallet. -/
theorem startNotifications_idempotent_start_witness :
    syncedIdle.startNotifications.handlerRuns = 1 ∧
      syncedIdle.startNotifications.syncData.syncstarted = start ∧
      syncedRescanning.startNotifications = syncedRescanning :=
  ⟨(startNotifications_idempotent_start syncedIdle).1.mpr rfl,
    ((startNotifications_idempotent_start syncedIdle).2.2.2.1 rfl).1,
    (startNotifications_idempotent_start syncedRescanning).2.1 rfl⟩

/-! ## C15: `RescanBlocks` is `RescanBlocksFromHeight 0` -/

/-- C15: for every wallet and every backend, `RescanBlocks` and
`RescanBlocksFromHeight 0` return the same error and leave the same wallet: same
sync state, same sequence of backend calls. -/
theorem RescanBlocks_eq_fromHeight_zero (be : Backend) (asset : BTCAsset) :
    (BTCAsset.RescanBlocks be asset).1 = (BTCAsset.RescanBlocksFromHeight be asset 0).1 ∧
      (BTCAsset.RescanBlocks be asset).2.syncData
        = (BTCAsset.RescanBlocksFromHeight be asset 0).2.syncData ∧
      (BTCAsset.RescanBlocks be asset).2.calls
        = (BTCAsset.RescanBlocksFromHeight be asset 0).2.calls ∧
      BTCAsset.RescanBlocks be asset = BTCAsset.RescanBlocksFromHeight be asset 0 :=
  ⟨rfl, rfl, rfl, rfl⟩

/-! ## C16: what `RescanBlocksFromHeight` hands to the core routine -/

/-- C16, counterexample: the height resolves, the block fetch fails;
`RescanBlocksFromHeight` returns the fetch error and registers no filter, which is
not what `rescanBlocks` does when called with the resolved hash. -/
theorem RescanBlocksFromHeight_fetch_fails_no_delegation :
    fetchFailBackend.getBlockHash syncedIdle.calls 5 = Except.ok ⟨5⟩ ∧
      (BTCAsset.RescanBlocksFromHeight fetchFailBackend syncedIdle 5).1
        = some (Error.backend 3) ∧
      countNotifyReceived (BTCAsset.RescanBlocksFromHeight fetchFailBackend syncedIdle 5).2.calls
        = 0 ∧
      (BTCAsset.rescanBlocks fetchFailBackend
        ((syncedIdle.record (Call.getBlockHash 5)).record (Call.getBlock ⟨5⟩))
        (some ⟨5⟩) none).1 = none ∧
      countNotifyReceived (BTCAsset.rescanBlocks fetchFailBackend
        ((syncedIdle.record (Call.getBlockHash 5)).record (Call.getBlock ⟨5⟩))
        (some ⟨5⟩) none).2.calls = 1 ∧
      BTCAsset.RescanBlocksFromHeight fetchFailBackend syncedIdle 5
        ≠ BTCAsset.rescanBlocks fetchFailBackend
            ((syncedIdle.record (Call.getBlockHash 5)).record (Call.getBlock ⟨5⟩))
            (some ⟨5⟩) none :=
  ⟨rfl, by decide, by decide, by decide, by decide, by decide⟩

/-- C16, amended: when the hash resolution and the block fetch both succeed,
`RescanBlocksFromHeight` delegates to the core routine with the hash of the fetched
block (`block.Hash()`) and the nil address set, on the wallet that has made the two
requests: this holds of the body for every routine put in the place of
`rescanBlocks`, so these are the arguments handed over; `rescanBlocks` only tests
the start hash for nil, so the outcome is also the one it has with the resolved hash.
When the fetch fails with `e` the core routine is not called: the result is `e` and
the wallet after the two requests, with the sync state as it was, no goroutine
started and no filter registered. -/
theorem RescanBlocksFromHeight_delegates (be : Backend) (asset : BTCAsset) (h : Int)
    (hash : Hash)
    (hh : be.getBlockHash asset.calls h = Except.ok hash) :
    (∀ core block,
        be.getBlock (asset.calls ++ [Call.getBlockHash h]) hash = Except.ok block →
        BTCAsset.RescanBlocksFromHeightWith be core asset h
          = core ((asset.record (Call.getBlockHash h)).record (Call.getBlock hash))
              (some block.blockHash) none) ∧
      (∀ block, be.getBlock (asset.calls ++ [Call.getBlockHash h]) hash = Except.ok block →
        BTCAsset.RescanBlocksFromHeight be asset h
            = BTCAsset.rescanBlocks be
                ((asset.record (Call.getBlockHash h)).record (Call.getBlock hash))
                (some block.blockHash) none ∧
          BTCAsset.RescanBlocksFromHeight be asset h
            = BTCAsset.rescanBlocks be
                ((asset.record (Call.getBlockHash h)).record (Call.getBlock hash))
                (some hash) none) ∧
      (∀ core e,
        be.getBlock (asset.calls ++ [Call.getBlockHash h]) hash = Except.error e →
        BTCAsset.RescanBlocksFromHeightWith be core asset h
          = (some e, (asset.record (Call.getBlockHash h)).record (Call.getBlock hash))) ∧
      (∀ e, be.getBlock (asset.calls ++ [Call.getBlockHash h]) hash = Except.error e →
        BTCAsset.RescanBlocksFromHeight be asset h
            = (some e, (asset.record (Call.getBlockHash h)).record (Call.getBlock hash)) ∧
          (BTCAsset.RescanBlocksFromHeight be asset h).2.syncData = asset.syncData ∧
          (BTCAsset.RescanBlocksFromHeight be asset h).2.goroutines = asset.goroutines ∧
          countNotifyReceived (BTCAsset.RescanBlocksFromHeight be asset h).2.calls
            = countNotifyReceived asset.calls) := by
  refine ⟨?_, ?_, ?_, ?_⟩
  · intro core block hg
    rw [RescanBlocksFromHeightWith_cases]
    simp only [hh, hg]
  · intro block hg
    rw [RescanBlocksFromHeight_cases]
    simp only [hh, hg, true_and]
    unfold BTCAsset.rescanBlocks
    rfl
  · intro core e hg
    rw [RescanBlocksFromHeightWith_cases]
    simp only [hh, hg]
  · intro e hg
    rw [RescanBlocksFromHeight_cases]
    simp [hh, hg, BTCAsset.record, countNotifyReceived_append, countNotifyReceived]

/-- C16, witness: height 9 on the backend where every request succeeds, and on the
backend that cannot deliver the block. -/
theorem RescanBlocksFromHeight_delegates_witness :
    goodBackend.getBlockHash syncedIdle.calls 9 = Except.ok ⟨9⟩ ∧
      BTCAsset.RescanBlocksFromHeight goodBackend syncedIdle 9
        = BTCAsset.rescanBlocks goodBackend
            ((syncedIdle.record (Call.getBlockHash 9)).record (Call.getBlock ⟨9⟩))
            (some (Block.mk ⟨9⟩ 0).blockHash) none ∧
      BTCAsset.RescanBlocksFromHeightWith goodBackend (fun a startHash _ => (none, a.record (Call.getBlock (startHash.getD ⟨0⟩))))
          syncedIdle 9
        = (none, ((syncedIdle.record (Call.getBlockHash 9)).record (Call.getBlock ⟨9⟩)).record
            (Call.getBlock ⟨9⟩)) ∧
      (BTCAsset.RescanBlocksFromHeight fetchFailBackend syncedIdle 9).2.syncData
        = syncedIdle.syncData :=
  ⟨rfl,
    ((RescanBlocksFromHeight_delegates goodBackend syncedIdle 9 ⟨9⟩ rfl).2.1
      ⟨⟨9⟩, 0⟩ rfl).1,
    (RescanBlocksFromHeight_delegates goodBackend syncedIdle 9 ⟨9⟩ rfl).1
      (fun a startHash _ => (none, a.record (Call.getBlock (startHash.getD ⟨0⟩))))
      ⟨⟨9⟩, 0⟩ rfl,
    ((RescanBlocksFromHeight_delegates fetchFailBackend syncedIdle 9 ⟨9⟩ rfl).2.2.2
      (Error.backend 3) rfl).2.1⟩

/-! ## C17: failures before the core routine -/

/-- C17: when the hash resolution fails with `e`, or the resolution succeeds and the
block fetch fails with `e`, `RescanBlocksFromHeight` returns exactly `e`, leaves the
sync state as it was, starts no goroutine and registers no address filter. -/
theorem RescanBlocksFromHeight_setup_failure (be : Backend) (asset : BTCAsset) (h : Int)
    (e : Error)
    (hfail : be.getBlockHash asset.calls h = Except.error e ∨
      ∃ hash, be.getBlockHash asset.calls h = Except.ok hash ∧
        be.getBlock (asset.calls ++ [Call.getBlockHash h]) hash = Except.error e) :
    (BTCAsset.RescanBlocksFromHeight be asset h).1 = some e ∧
      (BTCAsset.RescanBlocksFromHeight be asset h).2.syncData = asset.syncData ∧
      (BTCAsset.RescanBlocksFromHeight be asset h).2.goroutines = asset.goroutines ∧
      (BTCAsset.RescanBlocksFromHeight be asset h).2.handlerRuns = asset.handlerRuns ∧
      countNotifyReceived (BTCAsset.RescanBlocksFromHeight be asset h).2.calls
        = countNotifyReceived asset.calls := by
  rw [RescanBlocksFromHeight_cases]
  rcases hfail with hh | ⟨hash, hh, hg⟩
  · simp [hh, BTCAsset.record, countNotifyReceived_append, countNotifyReceived]
  · simp [hh, hg, BTCAsset.record, countNotifyReceived_append, countNotifyReceived]

/-- C17, witness: a height above the tip of the short chain, on a rescanning wallet. -/
theorem RescanBlocksFromHeight_setup_failure_witness :
    shortChainBackend.getBlockHash syncedRescanning.calls 500
        = Except.error (Error.backend 2) ∧
      (BTCAsset.RescanBlocksFromHeight shortChainBackend syncedRescanning 500).1
        = some (Error.backend 2) ∧
      (BTCAsset.RescanBlocksFromHeight shortChainBackend syncedRescanning 500).2.syncData
        = syncedRescanning.syncData :=
  ⟨rfl,
    (RescanBlocksFromHeight_setup_failure shortChainBackend syncedRescanning 500
      (Error.backend 2) (Or.inl rfl)).1,
    (RescanBlocksFromHeight_setup_failure shortChainBackend syncedRescanning 500
      (Error.backend 2) (Or.inl rfl)).2.1⟩

/-! ## C18: the address set handed to the backend -/

/-- C18: on a synced, idle wallet with a start hash, `rescanBlocks` sends exactly one
request, `NotifyReceived`: with the empty list when the address set is nil, and with
the list `addrs` itself, same content and order, when it is present. -/
theorem rescanBlocks_normalises_addrs (be : Backend) (asset : BTCAsset) (hash : Hash)
    (addrs : List Address)
    (hs : asset.IsSynced = true) (hr : asset.IsRescanning = false) :
    (BTCAsset.rescanBlocks be asset (some hash) none).2.calls
        = asset.calls ++ [Call.notifyReceived []] ∧
      (BTCAsset.rescanBlocks be asset (some hash) (some addrs)).2.calls
        = asset.calls ++ [Call.notifyReceived addrs] := by
  rw [rescanBlocks_ready be asset hash none hs hr,
    rescanBlocks_ready be asset hash (some addrs) hs hr]
  constructor
  · cases be.notifyReceived asset.calls ((none : Option (List Address)).getD []) <;> rfl
  · cases be.notifyReceived asset.calls ((some addrs).getD []) <;> rfl

/-- C18, witness: the idle wallet with the address list 3, 1, 2. -/
theorem rescanBlocks_normalises_addrs_witness :
    syncedIdle.IsSynced = true ∧ syncedIdle.IsRescanning = false ∧
      (BTCAsset.rescanBlocks goodBackend syncedIdle (some ⟨7⟩) none).2.calls
        = [Call.notifyReceived []] ∧
      (BTCAsset.rescanBlocks goodBackend syncedIdle (some ⟨7⟩) (some [⟨3⟩, ⟨1⟩, ⟨2⟩])).2.calls
        = [Call.notifyReceived [⟨3⟩, ⟨1⟩, ⟨2⟩]] :=
  ⟨rfl, rfl,
    (rescanBlocks_normalises_addrs goodBackend syncedIdle ⟨7⟩ [⟨3⟩, ⟨1⟩, ⟨2⟩] rfl rfl).1,
    (rescanBlocks_normalises_addrs goodBackend syncedIdle ⟨7⟩ [⟨3⟩, ⟨1⟩, ⟨2⟩] rfl rfl).2⟩

/-! ## C20: the progress listener -/

/-- C20: after `SetBlocksRescanProgressListener l1` followed by
`SetBlocksRescanProgressListener l2` the registered listener is `l2`, and the setter
changes no other field of the wallet: the sync state (`isRescan`, `syncstarted`,
`synced`), the backend calls and the goroutines are as before. -/
theorem SetBlocksRescanProgressListener_last_wins (asset : BTCAsset) (l1 l2 : Option Nat) :
    ((asset.SetBlocksRescanProgressListener l1).SetBlocksRescanProgressListener l2).blocksRescanProgressListener
        = l2 ∧
      (asset.SetBlocksRescanProgressListener l1).syncData = asset.syncData ∧
      (asset.SetBlocksRescanProgressListener l1).calls = asset.calls ∧
      (asset.SetBlocksRescanProgressListener l1).goroutines = asset.goroutines ∧
      (asset.SetBlocksRescanProgressListener l1).handlerRuns = asset.handlerRuns ∧
      (asset.SetBlocksRescanProgressListener l1).SetBlocksRescanProgressListener l2
        = asset.SetBlocksRescanProgressListener l2 :=
  ⟨rfl, rfl, rfl, rfl, rfl, rfl⟩

/-! ## C19: no backend request while `syncData.mu` is held -/

/-- The events of `rescanBlocks` keep the lock discipline, and its backend requests
are the ones the method appends to the call log. -/
theorem rescanBlocksEvents_ok (be : Backend) (asset : BTCAsset) (startHash : Option Hash)
    (addrs : Option (List Address)) :
    lockDiscipline Held.free (BTCAsset.rescanBlocksEvents be asset startHash addrs) = true ∧
      asset.calls ++ callsOf (BTCAsset.rescanBlocksEvents be asset startHash addrs)
        = (BTCAsset.rescanBlocks be asset startHash addrs).2.calls := by
  unfold BTCAsset.rescanBlocksEvents BTCAsset.rescanBlocks
  cases hr : asset.IsRescanning with
  | true => simp [IsRescanningEvents, lockDiscipline, lockStep, callsOf]
  | false =>
      cases hs : asset.IsSynced with
      | false => simp [IsRescanningEvents, IsSyncedEvents, lockDiscipline, lockStep, callsOf]
      | true =>
          cases startHash with
          | none => simp [IsRescanningEvents, IsSyncedEvents, lockDiscipline, lockStep, callsOf]
          | some hash =>
              cases addrs with
              | none =>
                  cases hn : be.notifyReceived asset.calls [] <;>
                    simp [hn, IsRescanningEvents, IsSyncedEvents, lockDiscipline, lockStep,
                      callsOf, BTCAsset.NotifyReceived, BTCAsset.record]
              | some l =>
                  cases hn : be.notifyReceived asset.calls l <;>
                    simp [hn, IsRescanningEvents, IsSyncedEvents, lockDiscipline, lockStep,
                      callsOf, BTCAsset.NotifyReceived, BTCAsset.record]

/-- The events of `RescanBlocksFromHeight` keep the lock discipline, and its backend
requests are the ones the method appends to the call log. -/
theorem RescanBlocksFromHeightEvents_ok (be : Backend) (asset : BTCAsset) (h : Int) :
    lockDiscipline Held.free (BTCAsset.RescanBlocksFromHeightEvents be asset h) = true ∧
      asset.calls ++ callsOf (BTCAsset.RescanBlocksFromHeightEvents be asset h)
        = (BTCAsset.RescanBlocksFromHeight be asset h).2.calls := by
  unfold BTCAsset.RescanBlocksFromHeightEvents BTCAsset.RescanBlocksFromHeight
    BTCAsset.RescanBlocksFromHeightWith
  simp only [BTCAsset.GetBlockHash, BTCAsset.GetBlock]
  cases hh : be.getBlockHash asset.calls h with
  | error e => simp [lockDiscipline, lockStep, callsOf, BTCAsset.record]
  | ok hash =>
      simp only []
      cases hg : be.getBlock (asset.record (Call.getBlockHash h)).calls hash with
      | error e =>
          simp only [hg]
          simp [lockDiscipline, lockStep, callsOf, BTCAsset.record]
      | ok block =>
          obtain ⟨h1, h2⟩ := rescanBlocksEvents_ok be
            ((asset.record (Call.getBlockHash h)).record (Call.getBlock hash))
            (some block.blockHash) none
          simp only [hg]
          refine ⟨h1, ?_⟩
          rw [← h2]
          change asset.calls ++ (_ :: _ :: callsOf _) = (asset.calls ++ [_] ++ [_]) ++ callsOf _
          simp

/-- The lock discipline rejects a backend request made between `Lock` and `Unlock`,
a lock that is not released, and a release of a lock that is not held. -/
theorem lockDiscipline_rejects :
    lockDiscipline Held.free [Event.lock, Event.call Call.stop, Event.unlock] = false ∧
      lockDiscipline Held.free [Event.rLock, Event.call (Call.getBlockHash 0), Event.rUnlock]
        = false ∧
      lockDiscipline Held.free [Event.lock] = false ∧
      lockDiscipline Held.free [Event.unlock] = false := by
  decide

/-- C19: on every execution path of `rescanBlocks`, `RescanBlocksFromHeight` and
`CancelRescan`, for every wallet, backend and argument, the lock `syncData.mu` is
never held when a backend request (`GetBlockHash`, `GetBlock`, `NotifyReceived`,
`Stop`) is made, every lock taken is released in the mode it was taken, and no lock
is held when the method returns. -/
theorem no_backend_call_under_lock (be : Backend) (asset : BTCAsset)
    (startHash : Option Hash) (addrs : Option (List Address)) (h : Int) :
    lockDiscipline Held.free (BTCAsset.rescanBlocksEvents be asset startHash addrs) = true ∧
      lockDiscipline Held.free (BTCAsset.RescanBlocksFromHeightEvents be asset h) = true ∧
      lockDiscipline Held.free CancelRescanEvents = true ∧
      asset.calls ++ callsOf (BTCAsset.rescanBlocksEvents be asset startHash addrs)
        = (BTCAsset.rescanBlocks be asset startHash addrs).2.calls ∧
      asset.calls ++ callsOf (BTCAsset.RescanBlocksFromHeightEvents be asset h)
        = (BTCAsset.RescanBlocksFromHeight be asset h).2.calls ∧
      asset.calls ++ callsOf CancelRescanEvents = asset.CancelRescan.calls :=
  ⟨(rescanBlocksEvents_ok be asset startHash addrs).1,
    (RescanBlocksFromHeightEvents_ok be asset h).1,
    by decide,
    (rescanBlocksEvents_ok be asset startHash addrs).2,
    (RescanBlocksFromHeightEvents_ok be asset h).2,
    rfl⟩

/-! ## C22: error returns of the core routine -/

/-- C22: when `rescanBlocks` fails because of the state check or an absent start
hash, the sync state (`isRescan`, `syncstarted`, `synced`) is as before and nothing
was sent to the backend, so `NotifyReceived` was not called; and on every error
return, a failed filter registration included, no goroutine was started, the handler
was not called and `syncstarted` is as before. -/
theorem rescanBlocks_failure_atomic (be : Backend) (asset : BTCAsset)
    (startHash : Option Hash) (addrs : Option (List Address)) :
    ((asset.IsRescanning = true ∨ asset.IsSynced = false ∨ startHash = none) →
        (BTCAsset.rescanBlocks be asset startHash addrs).1 ≠ none ∧
          (BTCAsset.rescanBlocks be asset startHash addrs).2.syncData = asset.syncData ∧
          (BTCAsset.rescanBlocks be asset startHash addrs).2.calls = asset.calls ∧
          countNotifyReceived (BTCAsset.rescanBlocks be asset startHash addrs).2.calls
            = countNotifyReceived asset.calls) ∧
      ((BTCAsset.rescanBlocks be asset startHash addrs).1 ≠ none →
        (BTCAsset.rescanBlocks be asset startHash addrs).2.goroutines = asset.goroutines ∧
          (BTCAsset.rescanBlocks be asset startHash addrs).2.handlerRuns = asset.handlerRuns ∧
          (BTCAsset.rescanBlocks be asset startHash addrs).2.syncData.syncstarted
            = asset.syncData.syncstarted) := by
  cases hr : asset.IsRescanning with
  | true =>
      rw [rescanBlocks_blocked be asset startHash addrs (Or.inl hr)]
      simp
  | false =>
      cases hs : asset.IsSynced with
      | false =>
          rw [rescanBlocks_blocked be asset startHash addrs (Or.inr hs)]
          simp
      | true =>
          cases startHash with
          | none => simp [BTCAsset.rescanBlocks, hs, hr]
          | some hash =>
              rw [rescanBlocks_ready be asset hash addrs hs hr]
              cases hn : be.notifyReceived asset.calls (addrs.getD []) <;> simp

/-- C22, witness: the three failing calls, on a rescanning wallet, on the idle wallet
without start hash, and on the idle wallet with a rejected registration. -/
theorem rescanBlocks_failure_atomic_witness :
    (BTCAsset.rescanBlocks goodBackend syncedRescanning (some ⟨7⟩) none).2.syncData
        = syncedRescanning.syncData ∧
      (BTCAsset.rescanBlocks goodBackend syncedIdle none none).2.calls = syncedIdle.calls ∧
      (BTCAsset.rescanBlocks rejectingBackend syncedIdle (some ⟨7⟩) none).2.goroutines
        = syncedIdle.goroutines ∧
      (BTCAsset.rescanBlocks rejectingBackend syncedIdle (some ⟨7⟩) none).2.syncData.syncstarted
        = syncedIdle.syncData.syncstarted :=
  ⟨((rescanBlocks_failure_atomic goodBackend syncedRescanning (some ⟨7⟩) none).1
      (Or.inl rfl)).2.1,
    ((rescanBlocks_failure_atomic goodBackend syncedIdle none none).1
      (Or.inr (Or.inr rfl))).2.2.1,
    ((rescanBlocks_failure_atomic rejectingBackend syncedIdle (some ⟨7⟩) none).2
      (by decide)).1,
    ((rescanBlocks_failure_atomic rejectingBackend syncedIdle (some ⟨7⟩) none).2
      (by decide)).2.2⟩

/-! ## C23: a rescan after a cancel -/

/-- C23: on a synced wallet with a rescan in progress, after `CancelRescan` a
following `RescanBlocksFromHeight h` whose hash resolution succeeds is not rejected
by the state check: its result is the fetch error when the block fetch fails, and
otherwise the answer of the backend to the filter registration, which is then made
once and leaves the wallet rescanning again.  The start hash handed to the core
routine, whatever routine stands in the place of `rescanBlocks`, is the hash of the
block the backend returned for the hash it resolved `h` to.  It depends only on `h`:
on a backend whose answers do not depend on the requests made before, the arguments
handed over and the fetch error are the same from every other wallet, whatever
rescan it ran or cancelled before. -/
theorem rescan_after_cancel (be : Backend) (asset : BTCAsset) (h : Int) (hash : Hash)
    (hs : asset.IsSynced = true) (_hr : asset.IsRescanning = true)
    (hh : be.getBlockHash asset.CancelRescan.calls h = Except.ok hash) :
    (∀ core, BTCAsset.RescanBlocksFromHeightWith be core asset.CancelRescan h =
        match be.getBlock (asset.CancelRescan.calls ++ [Call.getBlockHash h]) hash with
        | Except.error e =>
            (some e,
              (asset.CancelRescan.record (Call.getBlockHash h)).record (Call.getBlock hash))
        | Except.ok block =>
            core ((asset.CancelRescan.record (Call.getBlockHash h)).record (Call.getBlock hash))
              (some block.blockHash) none) ∧
      (BTCAsset.RescanBlocksFromHeight be asset.CancelRescan h).1 =
        (match be.getBlock (asset.CancelRescan.calls ++ [Call.getBlockHash h]) hash with
        | Except.error e => some e
        | Except.ok _ =>
            be.notifyReceived
              (asset.CancelRescan.calls ++ [Call.getBlockHash h, Call.getBlock hash]) []) ∧
      ((∀ e, be.getBlock (asset.CancelRescan.calls ++ [Call.getBlockHash h]) hash
            = Except.error e → e ≠ Error.invalid) →
        be.notifyReceived
            (asset.CancelRescan.calls ++ [Call.getBlockHash h, Call.getBlock hash]) []
          ≠ some Error.invalid →
        (BTCAsset.RescanBlocksFromHeight be asset.CancelRescan h).1 ≠ some Error.invalid) ∧
      (∀ block,
        be.getBlock (asset.CancelRescan.calls ++ [Call.getBlockHash h]) hash
          = Except.ok block →
        countNotifyReceived (BTCAsset.RescanBlocksFromHeight be asset.CancelRescan h).2.calls
            = countNotifyReceived asset.calls + 1 ∧
          (BTCAsset.RescanBlocksFromHeight be asset.CancelRescan h).2.IsRescanning = true) ∧
      ((∀ c1 c2 x, be.getBlockHash c1 x = be.getBlockHash c2 x) →
        (∀ c1 c2 x, be.getBlock c1 x = be.getBlock c2 x) →
        ∀ (other : BTCAsset) (k : Option Hash → Option (List Address) → Option Error),
          (BTCAsset.RescanBlocksFromHeightWith be (fun a startHash addrs => (k startHash addrs, a))
              asset.CancelRescan h).1
            = (BTCAsset.RescanBlocksFromHeightWith be
                (fun a startHash addrs => (k startHash addrs, a)) other h).1) := by
  have hs1 : asset.CancelRescan.IsSynced = true := by
    simpa [BTCAsset.CancelRescan, BTCAsset.Stop, BTCAsset.record, BTCAsset.IsSynced] using hs
  have hr1 : asset.CancelRescan.IsRescanning = false := rfl
  have hcalls : countNotifyReceived asset.CancelRescan.calls = countNotifyReceived asset.calls := by
    simp [BTCAsset.CancelRescan, BTCAsset.Stop, BTCAsset.record, countNotifyReceived_append,
      countNotifyReceived]
  have hres : (BTCAsset.RescanBlocksFromHeight be asset.CancelRescan h).1 =
      (match be.getBlock (asset.CancelRescan.calls ++ [Call.getBlockHash h]) hash with
      | Except.error e => some e
      | Except.ok _ =>
          be.notifyReceived
            (asset.CancelRescan.calls ++ [Call.getBlockHash h, Call.getBlock hash]) []) := by
    cases hg : be.getBlock (asset.CancelRescan.calls ++ [Call.getBlockHash h]) hash with
    | error e =>
        rw [RescanBlocksFromHeight_cases]
        simp only [hh, hg]
    | ok block =>
        rw [RescanBlocksFromHeight_ready be asset.CancelRescan h hash block hs1 hr1 hh hg]
        cases hn : be.notifyReceived
            (asset.CancelRescan.calls ++ [Call.getBlockHash h, Call.getBlock hash]) [] <;> rfl
  refine ⟨?_, hres, ?_, ?_, ?_⟩
  · intro core
    rw [RescanBlocksFromHeightWith_cases]
    simp only [hh]
  · intro hfetch hnotify
    rw [hres]
    cases hg : be.getBlock (asset.CancelRescan.calls ++ [Call.getBlockHash h]) hash with
    | error e =>
        intro hcontra
        exact hfetch e hg (Option.some.inj hcontra)
    | ok block => exact hnotify
  · intro block hg
    rw [RescanBlocksFromHeight_ready be asset.CancelRescan h hash block hs1 hr1 hh hg]
    cases hn : be.notifyReceived
        (asset.CancelRescan.calls ++ [Call.getBlockHash h, Call.getBlock hash]) [] <;>
      simp [countNotifyReceived_append, countNotifyReceived, hcalls, BTCAsset.IsRescanning]
  · intro hind1 hind2 other k
    rw [RescanBlocksFromHeightWith_cases, RescanBlocksFromHeightWith_cases]
    rw [hind1 other.calls asset.CancelRescan.calls h, hh]
    simp only []
    rw [hind2 (other.calls ++ [Call.getBlockHash h])
      (asset.CancelRescan.calls ++ [Call.getBlockHash h]) hash]
    cases be.getBlock (asset.CancelRescan.calls ++ [Call.getBlockHash h]) hash <;> rfl

/-- C23, witness: the rescanning wallet is cancelled and rescanned from height 42;
the call succeeds, the wallet is rescanning again, and a routine that logs the start
hash it is given shows the hash of block 42. -/
theorem rescan_after_cancel_witness :
    syncedRescanning.IsSynced = true ∧ syncedRescanning.IsRescanning = true ∧
      (BTCAsset.RescanBlocksFromHeight goodBackend syncedRescanning.CancelRescan 42).1 = none ∧
      (BTCAsset.RescanBlocksFromHeight goodBackend syncedRescanning.CancelRescan 42).2.IsRescanning
        = true ∧
      (BTCAsset.RescanBlocksFromHeightWith goodBackend
          (fun a startHash _ => (none, a.record (Call.getBlock (startHash.getD ⟨0⟩))))
          syncedRescanning.CancelRescan 42).2.calls
        = [Call.stop, Call.getBlockHash 42, Call.getBlock ⟨42⟩, Call.getBlock ⟨42⟩] :=
  ⟨rfl, rfl,
    (rescan_after_cancel goodBackend syncedRescanning 42 ⟨42⟩ rfl rfl rfl).2.1,
    ((rescan_after_cancel goodBackend syncedRescanning 42 ⟨42⟩ rfl rfl rfl).2.2.2.1
      ⟨⟨42⟩, 0⟩ rfl).2,
    congrArg (fun r => r.2.calls)
      ((rescan_after_cancel goodBackend syncedRescanning 42 ⟨42⟩ rfl rfl rfl).1
        (fun a startHash _ => (none, a.record (Call.getBlock (startHash.getD ⟨0⟩)))))⟩

/-! ## C24: what `CancelRescan` leaves alone -/

/-- C24: `CancelRescan` writes `isRescan` and no other field of the sync state:
`syncstarted` keeps its value (it is not reset to `stop`), and `synced`, the
registered progress listener, the pending goroutines and the handler count are as
before. -/
theorem CancelRescan_frame (asset : BTCAsset) :
    asset.CancelRescan.syncData = { asset.syncData with isRescan := false } ∧
      asset.CancelRescan.syncData.syncstarted = asset.syncData.syncstarted ∧
      asset.CancelRescan.syncData.synced = asset.syncData.synced ∧
      asset.CancelRescan.blocksRescanProgressListener = asset.blocksRescanProgressListener ∧
      asset.CancelRescan.goroutines = asset.goroutines ∧
      asset.CancelRescan.handlerRuns = asset.handlerRuns :=
  ⟨rfl, rfl, rfl, rfl, rfl, rfl⟩

end Btc

namespace Fmt

/-! ## Shared lemmas on 64-bit integers and truncated division -/

/-- Wrapping leaves a value of the `int64` range as it is. -/
theorem wrapInt64_of_range (n : Int) (h1 : minInt64 ≤ n) (h2 : n ≤ maxInt64) :
    wrapInt64 n = n := by
  simp only [minInt64, maxInt64] at h1 h2
  unfold wrapInt64
  omega

/-- Truncated division of a negative number by a non-negative one. -/
theorem tdiv_of_neg (a b : Int) (ha : a < 0) (hb : 0 ≤ b) : a.tdiv b = -((-a) / b) := by
  have h := Int.neg_tdiv (-a) b
  rw [Int.neg_neg] at h
  rw [h, Int.tdiv_eq_ediv (by omega) hb]

/-- The size of a truncated remainder. -/
theorem natAbs_tmod (n d : Int) : (n.tmod d).natAbs = n.natAbs % d.natAbs := by
  cases n with
  | ofNat m =>
      cases d with
      | ofNat k => rfl
      | negSucc k => rfl
  | negSucc m =>
      cases d with
      | ofNat k =>
          show (-((Nat.succ m % k : Nat) : Int)).natAbs = Nat.succ m % k
          rw [Int.natAbs_neg]
          rfl
      | negSucc k =>
          show (-((Nat.succ m % Nat.succ k : Nat) : Int)).natAbs = Nat.succ m % Nat.succ k
          rw [Int.natAbs_neg]
          rfl

/-- A truncated remainder is zero or has the sign of the numerator. -/
theorem tmod_sign (n d : Int) :
    n.tmod d = 0 ∨ (0 < n.tmod d ∧ 0 < n) ∨ (n.tmod d < 0 ∧ n < 0) := by
  rcases Int.lt_trichotomy n 0 with hn | hn | hn
  · have hle : n.tmod d ≤ 0 := by
      cases n with
      | ofNat m => exact absurd hn (Int.not_lt.mpr (Int.ofNat_nonneg m))
      | negSucc m =>
          cases d with
          | ofNat k =>
              show -((Nat.succ m % k : Nat) : Int) ≤ 0
              omega
          | negSucc k =>
              show -((Nat.succ m % Nat.succ k : Nat) : Int) ≤ 0
              omega
    omega
  · left
    rw [hn]
    exact Int.zero_tmod d
  · have hge := Int.tmod_nonneg d (Int.le_of_lt hn)
    omega

/-- A truncated quotient of `int64` values is an `int64`, the pair of the smallest
`int64` and `-1` apart. -/
theorem tdiv_in_range (n d : Int) (hn1 : minInt64 ≤ n) (hn2 : n ≤ maxInt64) (hd0 : d ≠ 0)
    (hov : ¬ (n = minInt64 ∧ d = -1)) :
    minInt64 ≤ n.tdiv d ∧ n.tdiv d ≤ maxInt64 := by
  simp only [minInt64, maxInt64] at *
  by_cases h1 : d.natAbs = 1
  · have hd : d = 1 ∨ d = -1 := by omega
    rcases hd with hd | hd
    · subst hd
      simp
      omega
    · subst hd
      simp
      omega
  · have hq : (n.tdiv d).natAbs = n.natAbs / d.natAbs := Int.natAbs_tdiv n d
    have h2 : 2 ≤ d.natAbs := by omega
    have hle : n.natAbs / d.natAbs ≤ n.natAbs / 2 :=
      Nat.div_le_div_left h2 (by decide)
    omega

end Fmt

namespace Components

/-! ## C28: `divMod` -/

/-- The overflow pair: the smallest `int64` divided by `-1` wraps around to itself,
with remainder zero. -/
theorem divMod_overflow :
    divMod Fmt.minInt64 (-1) = some (Fmt.minInt64, 0) := by
  decide

/-- C28: for `int64` values `n` and `d ≠ 0`, the pair of the smallest `int64` and
`-1` apart, `divMod` returns the truncated quotient `q` and the remainder `r` with
`n = q * d + r`, `|r| < |d|` and `r` zero or of the sign of `n`; the size of `q` is
the quotient of the sizes, so `q` is rounded towards zero; with `d = 0` the division
panics and nothing is returned. -/
theorem divMod_truncates (n d : Int)
    (hn1 : Fmt.minInt64 ≤ n) (hn2 : n ≤ Fmt.maxInt64)
    (hd1 : Fmt.minInt64 ≤ d) (hd2 : d ≤ Fmt.maxInt64)
    (hd0 : d ≠ 0) (hov : ¬ (n = Fmt.minInt64 ∧ d = -1)) :
    divMod n d = some (n.tdiv d, n.tmod d) ∧
      n = n.tdiv d * d + n.tmod d ∧
      (n.tmod d).natAbs < d.natAbs ∧
      (n.tmod d = 0 ∨ (0 < n.tmod d ∧ 0 < n) ∨ (n.tmod d < 0 ∧ n < 0)) ∧
      (n.tdiv d).natAbs = n.natAbs / d.natAbs ∧
      divMod n 0 = none := by
  have hr : (n.tmod d).natAbs < d.natAbs := by
    rw [Fmt.natAbs_tmod]
    exact Nat.mod_lt _ (Int.natAbs_pos.mpr hd0)
  have hq := Fmt.tdiv_in_range n d hn1 hn2 hd0 hov
  have hwq : Fmt.wrapInt64 (n.tdiv d) = n.tdiv d := Fmt.wrapInt64_of_range _ hq.1 hq.2
  have hwr : Fmt.wrapInt64 (n.tmod d) = n.tmod d := by
    apply Fmt.wrapInt64_of_range <;> simp only [Fmt.minInt64, Fmt.maxInt64] at * <;> omega
  refine ⟨?_, (Int.tdiv_add_tmod' n d).symm, hr, Fmt.tmod_sign n d, Int.natAbs_tdiv n d, ?_⟩
  · simp [divMod, hd0, hwq, hwr]
  · simp [divMod]

/-- C28, witness: `-7` divided by `2` gives `-3` and `-1`. -/
theorem divMod_truncates_witness :
    divMod (-7) 2 = some (-3, -1) ∧ (-7 : Int) = -3 * 2 + -1 :=
  ⟨(divMod_truncates (-7) 2 (by decide) (by decide) (by decide) (by decide) (by decide)
      (by decide)).1,
    (divMod_truncates (-7) 2 (by decide) (by decide) (by decide) (by decide) (by decide)
      (by decide)).2.1⟩

/-! ## C21: `SecondsToDays` -/

/-- The quotient and remainder `SecondsToDays` works with, for a non-negative
`int64`. -/
theorem divMod_day (t : Int) (h0 : 0 ≤ t) (hmax : t ≤ Fmt.maxInt64) :
    divMod t 86400 = some (t / 86400, t % 86400) := by
  have hq : t.tdiv 86400 = t / 86400 := Int.tdiv_eq_ediv h0 (by decide)
  have hr : t.tmod 86400 = t % 86400 := Int.tmod_eq_emod h0 (by decide)
  have hwq : Fmt.wrapInt64 (t / 86400) = t / 86400 := by
    apply Fmt.wrapInt64_of_range <;> simp only [Fmt.minInt64, Fmt.maxInt64] at * <;> omega
  have hwr : Fmt.wrapInt64 (t % 86400) = t % 86400 := by
    apply Fmt.wrapInt64_of_range <;> simp only [Fmt.minInt64, Fmt.maxInt64] at * <;> omega
  simp [divMod, hq, hr, hwq, hwr]

/-- C21: for a non-negative `int64` number of seconds `t`, with `q = t / 86400` and
`r = t mod 86400` (so `t = 86400 * q + r` and `0 ≤ r < 86400`), `SecondsToDays`
returns the decimal of `q`, then `d`, then the duration rendering of `r` seconds when
`q > 0`, and the duration rendering of `t` seconds alone when `q = 0`. -/
theorem SecondsToDays_spec (durationString : Int → String) (t : Int)
    (h0 : 0 ≤ t) (hmax : t ≤ Fmt.maxInt64) :
    t = 86400 * (t / 86400) + t % 86400 ∧ 0 ≤ t % 86400 ∧ t % 86400 < 86400 ∧
      (0 < t / 86400 →
        SecondsToDays durationString t
          = some (Fmt.decimal (t / 86400) ++ "d" ++ durationString (t % 86400 * second))) ∧
      (t / 86400 = 0 →
        SecondsToDays durationString t = some (durationString (t * second))) := by
  have hw : Fmt.wrapInt64 (t % 86400 * second) = t % 86400 * second := by
    apply Fmt.wrapInt64_of_range <;> simp only [Fmt.minInt64, Fmt.maxInt64, second] <;> omega
  refine ⟨by omega, by omega, by omega, ?_, ?_⟩
  · intro hq
    simp [SecondsToDays, divMod_day t h0 hmax, hw, hq]
  · intro hq
    have hr : t % 86400 = t := by omega
    rw [hr] at hw
    simp [SecondsToDays, divMod_day t h0 hmax, hw, hq, hr]

/-- C21, witness: one day, one hour, one minute and one second. -/
theorem SecondsToDays_spec_witness :
    SecondsToDays secondsOnly 90061 = some "1d3661s" ∧
      SecondsToDays secondsOnly 3661 = some "3661s" :=
  ⟨((SecondsToDays_spec secondsOnly 90061 (by decide) (by decide)).2.2.2.1 (by decide)),
    ((SecondsToDays_spec secondsOnly 3661 (by decide) (by decide)).2.2.2.2 (by decide))⟩

end Components

namespace Dcr

/-! ## C25: `calculateTotalTimeRemaining` -/

/-- C25: for every integer `t` (every `int64` in particular), when `t ≥ 60` the
result is the decimal of `t / 60` followed by ` min`, and that count is at least 1;
when `t < 60`, zero and the negative numbers included, the result is the decimal of
`t` followed by ` sec`. -/
theorem calculateTotalTimeRemaining_spec (t : Int) :
    (60 ≤ t →
        calculateTotalTimeRemaining t = Fmt.decimal (t.tdiv 60) ++ " min" ∧
          t.tdiv 60 = t / 60 ∧ 1 ≤ t.tdiv 60) ∧
      (t < 60 → calculateTotalTimeRemaining t = Fmt.decimal t ++ " sec") := by
  constructor
  · intro h
    have hq : t.tdiv 60 = t / 60 := Int.tdiv_eq_ediv (by omega) (by decide)
    have hpos : 0 < t / 60 := by omega
    refine ⟨?_, hq, by omega⟩
    simp [calculateTotalTimeRemaining, hq, hpos]
  · intro h
    have hle : ¬ (0 < t.tdiv 60) := by
      by_cases h0 : 0 ≤ t
      · rw [Int.tdiv_eq_ediv h0 (by decide)]
        omega
      · rw [Fmt.tdiv_of_neg t 60 (by omega) (by decide)]
        omega
    simp [calculateTotalTimeRemaining, hle]

/-- C25, witness: 125 seconds, 59 seconds and a negative count. -/
theorem calculateTotalTimeRemaining_spec_witness :
    calculateTotalTimeRemaining 125 = "2 min" ∧
      calculateTotalTimeRemaining 59 = "59 sec" ∧
      calculateTotalTimeRemaining (-120) = "-120 sec" :=
  ⟨((calculateTotalTimeRemaining_spec 125).1 (by decide)).1,
    (calculateTotalTimeRemaining_spec 59).2 (by decide),
    (calculateTotalTimeRemaining_spec (-120)).2 (by decide)⟩

end Dcr

namespace Components

/-! ## C26: `TruncateString` -/

/-- A negative `num` makes the slice expression of `TruncateString` panic. -/
theorem TruncateString_negative :
    TruncateString [104, 105] (-1) = none := by
  decide

/-- C26: for every string and every `num ≥ 0`, `TruncateString` returns (no slice
bound is out of range); it returns `str` itself when `len(str) ≤ num`; when
`len(str) > num` and `num > 3` it returns the first `num - 3` bytes followed by
`...`, of length `num`; when `len(str) > num` and `num ≤ 3` it returns the first
`num` bytes followed by `...`, of length `num + 3`. -/
theorem TruncateString_spec (str : List Byte) (num : Int) (hnum : 0 ≤ num) :
    (TruncateString str num).isSome = true ∧
      ((str.length : Int) ≤ num → TruncateString str num = some str) ∧
      (num < (str.length : Int) → 3 < num →
        TruncateString str num = some (str.take (num - 3).toNat ++ dots) ∧
          ((str.take (num - 3).toNat ++ dots).length : Int) = num) ∧
      (num < (str.length : Int) → num ≤ 3 →
        TruncateString str num = some (str.take num.toNat ++ dots) ∧
          ((str.take num.toNat ++ dots).length : Int) = num + 3) := by
  have hlong : num < (str.length : Int) → 3 < num →
      TruncateString str num = some (str.take (num - 3).toNat ++ dots) ∧
        ((str.take (num - 3).toNat ++ dots).length : Int) = num := by
    intro h1 h2
    have hb : 0 ≤ num - 3 ∧ num - 3 ≤ (str.length : Int) := by omega
    refine ⟨by simp [TruncateString, sliceTo, h1, h2, hb], ?_⟩
    simp only [List.length_append, List.length_take, dots, List.length_cons, List.length_nil]
    omega
  have hshort : num < (str.length : Int) → num ≤ 3 →
      TruncateString str num = some (str.take num.toNat ++ dots) ∧
        ((str.take num.toNat ++ dots).length : Int) = num + 3 := by
    intro h1 h2
    have hb : 0 ≤ num ∧ num ≤ (str.length : Int) := by omega
    have h3 : ¬ (3 < num) := by omega
    refine ⟨by simp [TruncateString, sliceTo, h1, h3, hb], ?_⟩
    simp only [List.length_append, List.length_take, dots, List.length_cons, List.length_nil]
    omega
  have hfit : (str.length : Int) ≤ num → TruncateString str num = some str := by
    intro h
    have h1 : ¬ (num < (str.length : Int)) := by omega
    simp [TruncateString, h1]
  refine ⟨?_, hfit, hlong, hshort⟩
  by_cases h1 : num < (str.length : Int)
  · by_cases h2 : 3 < num
    · rw [(hlong h1 h2).1]
      rfl
    · rw [(hshort h1 (by omega)).1]
      rfl
  · rw [hfit (by omega)]
    rfl

/-- C26, witness: seven bytes cut to 5, and to 2. -/
theorem TruncateString_spec_witness :
    TruncateString [104, 101, 108, 108, 111, 32, 119] 5 = some [104, 101, 46, 46, 46] ∧
      TruncateString [104, 101, 108, 108, 111, 32, 119] 2 = some [104, 101, 46, 46, 46] ∧
      TruncateString [104, 101] 2 = some [104, 101] :=
  ⟨((TruncateString_spec [104, 101, 108, 108, 111, 32, 119] 5 (by decide)).2.2.1
      (by decide) (by decide)).1,
    ((TruncateString_spec [104, 101, 108, 108, 111, 32, 119] 2 (by decide)).2.2.2
      (by decide) (by decide)).1,
    (TruncateString_spec [104, 101] 2 (by decide)).2.1 (by decide)⟩

/-! ## C27: the short form of `TimeFormat` -/

/-- C27: with `long = false`, `TimeFormat` gives, for `secs > 86399`, the decimal of
`secs / 86400` followed by `d`; for `3599 < secs ≤ 86399`, `secs / 3600` followed by
`h`; for `59 < secs ≤ 3599`, `secs / 60` followed by `s`, the letter also used for
seconds; and for `secs ≤ 59`, the decimal of `secs`, a space, and `s`. -/
theorem TimeFormat_short (valuesString : StrKey → String) (secs : Int) :
    (86399 < secs →
        TimeFormat valuesString secs false = Fmt.decimal (secs.tdiv 86400) ++ "d") ∧
      (3599 < secs → secs ≤ 86399 →
        TimeFormat valuesString secs false = Fmt.decimal (secs.tdiv 3600) ++ "h") ∧
      (59 < secs → secs ≤ 3599 →
        TimeFormat valuesString secs false = Fmt.decimal (secs.tdiv 60) ++ "s") ∧
      (secs ≤ 59 →
        TimeFormat valuesString secs false = Fmt.decimal secs ++ " " ++ "s") := by
  refine ⟨?_, ?_, ?_, ?_⟩
  · intro h
    simp [TimeFormat, h]
  · intro h1 h2
    have h3 : ¬ (86399 < secs) := by omega
    simp [TimeFormat, h1, h3]
  · intro h1 h2
    have h3 : ¬ (86399 < secs) := by omega
    have h4 : ¬ (3599 < secs) := by omega
    simp [TimeFormat, h1, h3, h4]
  · intro h
    have h3 : ¬ (86399 < secs) := by omega
    have h4 : ¬ (3599 < secs) := by omega
    have h5 : ¬ (59 < secs) := by omega
    simp [TimeFormat, h3, h4, h5]

/-- C27, witness: two days, two hours, two minutes, and seven seconds. -/
theorem TimeFormat_short_witness :
    TimeFormat (fun _ => "") 180000 false = "2d" ∧
      TimeFormat (fun _ => "") 7300 false = "2h" ∧
      TimeFormat (fun _ => "") 125 false = "2s" ∧
      TimeFormat (fun _ => "") 7 false = "7 s" :=
  ⟨(TimeFormat_short (fun _ => "") 180000).1 (by decide),
    (TimeFormat_short (fun _ => "") 7300).2.1 (by decide) (by decide),
    (TimeFormat_short (fun _ => "") 125).2.2.1 (by decide) (by decide),
    (TimeFormat_short (fun _ => "") 7).2.2.2 (by decide)⟩

end Components
